import Mathlib

/-!
Verification development for the Agent State Memory Subsystem (ASMS):
a shallow embedding, in Lean 4, of the repository's bounded memory
structures — the JSON validator/repair, the syntax-aware truncator, the
streaming message reducer, the tool-call criticality analyzer, the
intelligent context manager, the memory monitor, the bounded document
cache and the bounded string manager — together with theorems settling
the specification's claims about them.

Modelling conventions:
* JS strings are modelled as Lean `String`/`List Char`; `.length`,
  `substring` and friends are modelled over code points (JS uses UTF-16
  units; the two agree on all inputs used here, which are BMP text).
* `Buffer.byteLength(s, "utf8")` is modelled as the sum of the UTF-8
  sizes of the code points.
* JS regular-expression tests and global matches are modelled by
  purpose-built scanners equivalent to the concrete patterns that appear
  in the source.
* `Math.floor(n * q)` for a literal decimal `q = p/10` is modelled as
  `(n * p) / 10` over `Nat`; the two agree at every configuration
  exercised in this development.  Memory-pressure quantities fed to
  floating-point comparisons are modelled over `ℚ`, which agrees with
  IEEE doubles away from representation-boundary ties (none of the
  comparisons settled here are such ties).
* `Date.now()` is modelled by threading an explicit clock value.
-/

/-! ## JS string primitives -/

/-- JS `\w` word character: `[A-Za-z0-9_]`. -/
def isWordChar (c : Char) : Bool :=
  (('a' ≤ c && c ≤ 'z') || ('A' ≤ c && c ≤ 'Z') || ('0' ≤ c && c ≤ '9') || c = '_')

/-- JS `\s` whitespace (ASCII fragment: space, tab, LF, CR, VT, FF). -/
def isWsChar (c : Char) : Bool :=
  (c = ' ' || c = '\t' || c = '\n' || c = '\r' || c = '\x0b' || c = '\x0c')

/-- UTF-8 byte length of a string (`Buffer.byteLength(s, "utf8")`). -/
def utf8Len (s : String) : Nat :=
  s.data.foldl (fun n c => n + c.utf8Size) 0

/-- Does `pat` occur at the head of `cs`? -/
def prefixAt : List Char → List Char → Bool
  | [], _ => true
  | _ :: _, [] => false
  | p :: ps, c :: cs => p = c && prefixAt ps cs

/-- Substring search over character lists (JS `String.includes`). -/
def containsSub (cs pat : List Char) : Bool :=
  match cs with
  | [] => prefixAt pat []
  | _ :: rest => prefixAt pat cs || containsSub rest pat

/-- JS `s.includes(pat)`. -/
def jsIncludes (s pat : String) : Bool := containsSub s.data pat.data

/-- JS `s.startsWith(pat)`. -/
def jsStartsWith (s pat : String) : Bool := prefixAt pat.data s.data

/-- JS `s.endsWith(pat)`. -/
def jsEndsWith (s pat : String) : Bool := prefixAt pat.data.reverse s.data.reverse

/-- ASCII lower-casing (JS `toLowerCase` on the ASCII inputs used here). -/
def asciiLower (s : String) : String :=
  ⟨s.data.map (fun c => if 'A' ≤ c && c ≤ 'Z' then Char.ofNat (c.toNat + 32) else c)⟩

/-- ASCII upper-casing (JS `toUpperCase` on the ASCII inputs used here). -/
def asciiUpper (s : String) : String :=
  ⟨s.data.map (fun c => if 'a' ≤ c && c ≤ 'z' then Char.ofNat (c.toNat - 32) else c)⟩

/-- JS `String.trim` (ASCII whitespace fragment). -/
def jsTrim (s : String) : String :=
  ⟨((s.data.dropWhile isWsChar).reverse.dropWhile isWsChar).reverse⟩

/-- JS `s.split(sep)` for a non-empty separator string (fuel-indexed;
the fuel is an upper bound on the input length, so the `0` case is never
reached from `splitOnList`). -/
def splitGo (sep : List Char) : Nat → List Char → List (List Char)
  | _, [] => [[]]
  | 0, cs => [cs]
  | fuel + 1, c :: rest =>
    if 0 < sep.length && prefixAt sep (c :: rest) then
      [] :: splitGo sep fuel ((c :: rest).drop sep.length)
    else
      match splitGo sep fuel rest with
      | [] => [[c]]
      | p :: ps => (c :: p) :: ps

def splitOnList (cs sep : List Char) : List (List Char) :=
  splitGo sep cs.length cs

/-- JS `s.split(sep)`. -/
def jsSplit (s sep : String) : List String :=
  (splitOnList s.data sep.data).map (fun cs => ⟨cs⟩)

/-- JS `s.split("\n")`, the line view used throughout the source. -/
def jsLines (s : String) : List String := jsSplit s "\n"

/-- JS `Array.prototype.slice(-n)` for `n ≥ 0`: the last `n` elements,
except that `slice(-0) = slice(0)` returns the whole array. -/
def jsSliceLast (n : Nat) (xs : List α) : List α :=
  if n = 0 then xs else xs.drop (xs.length - n)

/-- JS `Array.prototype.slice(0, n)`. -/
def jsSliceTake (n : Nat) (xs : List α) : List α := xs.take n

/-- JS `s.substring(0, n)` (code-point model). -/
def jsSubstringTo (s : String) (n : Nat) : String := ⟨s.data.take n⟩

/-- JS `s.repeat(n)` for single characters. -/
def repChar (c : Char) (n : Nat) : String := ⟨List.replicate n c⟩

/-- Remove the last occurrence of `c` from `cs`, if any (models
`s.substring(0, s.lastIndexOf(c)) + s.substring(s.lastIndexOf(c)+1)`). -/
def removeLastChar (cs : List Char) (c : Char) : List Char :=
  match (cs.reverse.dropWhile (fun x => x ≠ c)) with
  | [] => cs
  | _ :: before => before.reverse ++ (cs.reverse.takeWhile (fun x => x ≠ c)).reverse

/-- First-occurrence deduplication (JS `new Set(...)` insertion order,
or a `!xs.includes(x)` guard before each push). -/
def dedupFirst [DecidableEq α] : List α → List α
  | [] => []
  | x :: xs => x :: (dedupFirst (xs.filter (fun y => y ≠ x)))
termination_by xs => xs.length
decreasing_by
  exact Nat.lt_succ_of_le (List.length_filter_le _ _)

/-! ## JSON values, parser and serializer

`JSON.parse` is modelled by a recursive-descent parser for the JSON
grammar (ECMA-404): a `none` result models a thrown `SyntaxError`.
Numbers are kept as their source lexemes (no claim settled here inspects
numeric values).  `\uXXXX` escapes are accepted with any four hex digits;
the decoded code point uses `Char.ofNat`. -/

inductive Json where
  | nul : Json
  | bool : Bool → Json
  | num : String → Json
  | str : String → Json
  | arr : List Json → Json
  | obj : List (String × Json) → Json

/-- Insert a key/value into an object under `JSON.parse` duplicate-key
semantics: a later duplicate overwrites the value in place. -/
def insertKv (kvs : List (String × Json)) (k : String) (v : Json) :
    List (String × Json) :=
  if kvs.any (fun kv => kv.1 = k) then
    kvs.map (fun kv => if kv.1 = k then (k, v) else kv)
  else kvs ++ [(k, v)]

/-- JSON insignificant whitespace. -/
def isJsonWs (c : Char) : Bool := (c = ' ' || c = '\t' || c = '\n' || c = '\r')

def skipJsonWs (cs : List Char) : List Char := cs.dropWhile isJsonWs

def isHexDigit (c : Char) : Bool :=
  (('0' ≤ c && c ≤ '9') || ('a' ≤ c && c ≤ 'f') || ('A' ≤ c && c ≤ 'F'))

def isDigit (c : Char) : Bool := ('0' ≤ c && c ≤ '9')

def hexVal (c : Char) : Nat :=
  if '0' ≤ c && c ≤ '9' then c.toNat - '0'.toNat
  else if 'a' ≤ c && c ≤ 'f' then c.toNat - 'a'.toNat + 10
  else if 'A' ≤ c && c ≤ 'F' then c.toNat - 'A'.toNat + 10
  else 0

/-- Parse the remainder of a JSON string literal (after the opening
quote), returning the decoded characters and the rest of the input. -/
def parseJsonStr : List Char → Option (List Char × List Char)
  | [] => none
  | '"' :: rest => some ([], rest)
  | '\\' :: rest =>
    match rest with
    | '"' :: rs => (parseJsonStr rs).map (fun (s, r) => ('"' :: s, r))
    | '\\' :: rs => (parseJsonStr rs).map (fun (s, r) => ('\\' :: s, r))
    | '/' :: rs => (parseJsonStr rs).map (fun (s, r) => ('/' :: s, r))
    | 'b' :: rs => (parseJsonStr rs).map (fun (s, r) => ('\x08' :: s, r))
    | 'f' :: rs => (parseJsonStr rs).map (fun (s, r) => ('\x0c' :: s, r))
    | 'n' :: rs => (parseJsonStr rs).map (fun (s, r) => ('\n' :: s, r))
    | 'r' :: rs => (parseJsonStr rs).map (fun (s, r) => ('\r' :: s, r))
    | 't' :: rs => (parseJsonStr rs).map (fun (s, r) => ('\t' :: s, r))
    | 'u' :: h1 :: h2 :: h3 :: h4 :: rs =>
      if isHexDigit h1 && isHexDigit h2 && isHexDigit h3 && isHexDigit h4 then
        let n := ((hexVal h1 * 16 + hexVal h2) * 16 + hexVal h3) * 16 + hexVal h4
        (parseJsonStr rs).map (fun (s, r) => (Char.ofNat n :: s, r))
      else none
    | _ => none
  | c :: rest =>
    if c.toNat < 0x20 then none
    else (parseJsonStr rest).map (fun (s, r) => (c :: s, r))

/-- Parse a JSON number lexeme: `-? (0 | [1-9][0-9]*) (. [0-9]+)? ([eE][+-]?[0-9]+)?`. -/
def parseJsonNum (cs : List Char) : Option (List Char × List Char) :=
  let (sign, cs1) := match cs with
    | '-' :: rest => (['-'], rest)
    | _ => (([] : List Char), cs)
  match cs1 with
  | [] => none
  | c :: rest =>
    if !isDigit c then none else
    let (intPart, cs2) :=
      if c = '0' then ([c], rest)
      else (c :: rest.takeWhile isDigit, rest.dropWhile isDigit)
    let (fracPart, cs3) :=
      match cs2 with
      | '.' :: d :: rs =>
        if isDigit d then ('.' :: d :: rs.takeWhile isDigit, rs.dropWhile isDigit)
        else (([] : List Char), cs2)
      | _ => (([] : List Char), cs2)
    if fracPart = [] && (match cs2 with | '.' :: _ => true | _ => false) then none
    else
      let (expPart, cs4) :=
        match cs3 with
        | e :: rs =>
          if e = 'e' || e = 'E' then
            let (sg, rs1) := match rs with
              | s :: rs2 => if s = '+' || s = '-' then ([s], rs2) else (([] : List Char), rs)
              | [] => (([] : List Char), rs)
            match rs1 with
            | d :: _ =>
              if isDigit d then
                (e :: sg ++ rs1.takeWhile isDigit, rs1.dropWhile isDigit)
              else (([] : List Char), cs3)
            | [] => (([] : List Char), cs3)
          else (([] : List Char), cs3)
        | [] => (([] : List Char), cs3)
      if expPart = [] && (match cs3 with | e :: _ => e = 'e' || e = 'E' | _ => false) then none
      else some (sign ++ intPart ++ fracPart ++ expPart, cs4)

mutual

/-- Parse one JSON value (fuel-indexed recursive descent). -/
def parseJsonVal : Nat → List Char → Option (Json × List Char)
  | 0, _ => none
  | Nat.succ fuel, cs =>
    match skipJsonWs cs with
    | [] => none
    | '{' :: rest => parseJsonObj fuel (skipJsonWs rest) true
    | '[' :: rest => parseJsonArr fuel (skipJsonWs rest) true
    | '"' :: rest => (parseJsonStr rest).map (fun (s, r) => (Json.str ⟨s⟩, r))
    | 't' :: 'r' :: 'u' :: 'e' :: rest => some (Json.bool true, rest)
    | 'f' :: 'a' :: 'l' :: 's' :: 'e' :: rest => some (Json.bool false, rest)
    | 'n' :: 'u' :: 'l' :: 'l' :: rest => some (Json.nul, rest)
    | other => (parseJsonNum other).map (fun (lex, r) => (Json.num ⟨lex⟩, r))

/-- Parse the members of a JSON object after the opening brace;
`first` is true when no member has been consumed yet. -/
def parseJsonObj : Nat → List Char → Bool → Option (Json × List Char)
  | 0, _, _ => none
  | Nat.succ fuel, cs, first =>
    match cs with
    | '}' :: rest => if first then some (Json.obj [], rest) else none
    | _ =>
      match parseJsonObjMembers fuel cs [] with
      | some (kvs, rest) => some (Json.obj kvs, rest)
      | none => none

/-- Parse `string : value (, string : value)* }`. -/
def parseJsonObjMembers : Nat → List Char → List (String × Json) →
    Option (List (String × Json) × List Char)
  | 0, _, _ => none
  | Nat.succ fuel, cs, acc =>
    match skipJsonWs cs with
    | '"' :: rest =>
      match parseJsonStr rest with
      | none => none
      | some (k, afterKey) =>
        match skipJsonWs afterKey with
        | ':' :: afterColon =>
          match parseJsonVal fuel afterColon with
          | none => none
          | some (v, afterVal) =>
            let acc' := insertKv acc ⟨k⟩ v
            match skipJsonWs afterVal with
            | ',' :: afterComma => parseJsonObjMembers fuel afterComma acc'
            | '}' :: rest' => some (acc', rest')
            | _ => none
        | _ => none
    | _ => none

/-- Parse the elements of a JSON array after the opening bracket. -/
def parseJsonArr : Nat → List Char → Bool → Option (Json × List Char)
  | 0, _, _ => none
  | Nat.succ fuel, cs, first =>
    match cs with
    | ']' :: rest => if first then some (Json.arr [], rest) else none
    | _ =>
      match parseJsonArrElems fuel cs [] with
      | some (xs, rest) => some (Json.arr xs, rest)
      | none => none

/-- Parse `value (, value)* ]`. -/
def parseJsonArrElems : Nat → List Char → List Json →
    Option (List Json × List Char)
  | 0, _, _ => none
  | Nat.succ fuel, cs, acc =>
    match parseJsonVal fuel cs with
    | none => none
    | some (v, afterVal) =>
      match skipJsonWs afterVal with
      | ',' :: afterComma => parseJsonArrElems fuel afterComma (acc ++ [v])
      | ']' :: rest => some (acc ++ [v], rest)
      | _ => none

end

/-- Source `JSON.parse`: parse a complete JSON text (leading and trailing
whitespace allowed, nothing else may follow). -/
def jsonParse (s : String) : Option Json :=
  match parseJsonVal (s.data.length + 1) s.data with
  | some (v, rest) => if skipJsonWs rest = [] then some v else none
  | none => none

/-- Does `JSON.parse` succeed on `s`? -/
def jsonParses (s : String) : Bool := (jsonParse s).isSome

/-! ### `JSON.stringify` -/

/-- Escape one character for a JSON string literal, as `JSON.stringify`
does: `"` and `\` are backslash-escaped, the named control characters use
their short escapes, other control characters use `\u00XX`, everything
else is emitted literally. -/
def escapeJsonChar (c : Char) : List Char :=
  if c = '"' then ['\\', '"']
  else if c = '\\' then ['\\', '\\']
  else if c = '\x08' then ['\\', 'b']
  else if c = '\x0c' then ['\\', 'f']
  else if c = '\n' then ['\\', 'n']
  else if c = '\r' then ['\\', 'r']
  else if c = '\t' then ['\\', 't']
  else if c.toNat < 0x20 then
    let hexDigit := fun (n : Nat) =>
      if n < 10 then Char.ofNat ('0'.toNat + n) else Char.ofNat ('a'.toNat + n - 10)
    ['\\', 'u', '0', '0', hexDigit (c.toNat / 16), hexDigit (c.toNat % 16)]
  else [c]

/-- A JSON string literal for `s`. -/
def quoteJsonStr (s : String) : String :=
  ⟨'"' :: (s.data.flatMap escapeJsonChar) ++ ['"']⟩

/-- Compact `JSON.stringify(v)` (no whitespace).  Numbers are emitted as
their stored lexemes. -/
def stringifyCompact : Json → String
  | Json.nul => "null"
  | Json.bool true => "true"
  | Json.bool false => "false"
  | Json.num lex => lex
  | Json.str s => quoteJsonStr s
  | Json.arr xs =>
    "[" ++ String.intercalate "," (xs.attach.map (fun x => stringifyCompact x.1)) ++ "]"
  | Json.obj kvs =>
    "\x7b" ++ String.intercalate ","
      (kvs.attach.map (fun kv => quoteJsonStr kv.1.1 ++ ":" ++ stringifyCompact kv.1.2))
    ++ "\x7d"
termination_by v => sizeOf v
decreasing_by
  · have h := List.sizeOf_lt_of_mem x.2
    simp only [Json.arr.sizeOf_spec]
    omega
  · have h := List.sizeOf_lt_of_mem kv.2
    obtain ⟨⟨k, v⟩, hm⟩ := kv
    simp only [Json.obj.sizeOf_spec, Prod.mk.sizeOf_spec] at h ⊢
    omega

/-- Pretty `JSON.stringify(v, null, 2)` at indentation depth `d`. -/
def stringifyIndent (d : Nat) : Json → String
  | Json.nul => "null"
  | Json.bool true => "true"
  | Json.bool false => "false"
  | Json.num lex => lex
  | Json.str s => quoteJsonStr s
  | Json.arr [] => "[]"
  | Json.arr xs =>
    let pad := repChar ' ' (2 * (d + 1))
    "[\n" ++ String.intercalate ",\n"
      (xs.attach.map (fun x => pad ++ stringifyIndent (d + 1) x.1))
    ++ "\n" ++ repChar ' ' (2 * d) ++ "]"
  | Json.obj [] => "\x7b\x7d"
  | Json.obj kvs =>
    let pad := repChar ' ' (2 * (d + 1))
    "\x7b\n" ++ String.intercalate ",\n"
      (kvs.attach.map (fun kv =>
        pad ++ quoteJsonStr kv.1.1 ++ ": " ++ stringifyIndent (d + 1) kv.1.2))
    ++ "\n" ++ repChar ' ' (2 * d) ++ "\x7d"
termination_by v => sizeOf v
decreasing_by
  · have h := List.sizeOf_lt_of_mem x.2
    simp only [Json.arr.sizeOf_spec]
    omega
  · have h := List.sizeOf_lt_of_mem kv.2
    obtain ⟨⟨k, v⟩, hm⟩ := kv
    simp only [Json.obj.sizeOf_spec, Prod.mk.sizeOf_spec] at h ⊢
    omega

/-- Source `JSON.stringify(v, null, 2)`. -/
def stringifyPretty (v : Json) : String := stringifyIndent 0 v

/-! ## JSON validator / repair
(`apps/open-swe/src/utils/json-validator.ts`, class `JSONValidator`) -/

/-- Source `ValidationResult` of the JSON validator.  The human-readable
`error`/`suggestions` strings are modelled; `fixedContent` is carried
exactly. -/
structure ValidationResult where
  valid : Bool
  error : Option String := none
  fixedContent : Option String := none
  suggestions : List String := []

/-- Length bound for `dropWhile`, used in termination arguments. -/
theorem lengthDropWhileLe (p : Char → Bool) (l : List Char) :
    (l.dropWhile p).length ≤ l.length := by
  induction l with
  | nil => simp [List.dropWhile]
  | cons c cs ih =>
    simp only [List.dropWhile]
    split
    · exact Nat.le_succ_of_le ih
    · simp

/-- Source `fixTrailingCommas`: `content.replace(/,(\s*[}\]])/g, "$1")` followed
by `content.replace(/,(\s*$)/g, "")`.  Matches are found left to right and
scanning resumes after each match, as JS global replace does.  The fuel
is an upper bound on the input length, so the `0` case is never reached
from `fixTrailingCommas`. -/
def fixTrailingCommasGo : Nat → List Char → List Char
  | _, [] => []
  | 0, cs => cs
  | fuel + 1, c :: rest =>
    if c = ',' then
      let ws := rest.takeWhile isWsChar
      match rest.dropWhile isWsChar with
      | d :: rs =>
        if d = '\x7d' || d = ']' then
          ws ++ d :: fixTrailingCommasGo fuel rs
        else ',' :: fixTrailingCommasGo fuel rest
      | [] => ',' :: fixTrailingCommasGo fuel rest
    else c :: fixTrailingCommasGo fuel rest

/-- The `/,(\s*$)/` pass: drop a comma that is followed only by
whitespace up to the end of the string. -/
def fixTrailingEndComma : List Char → List Char
  | [] => []
  | ',' :: rest =>
    if rest.all isWsChar then rest else ',' :: fixTrailingEndComma rest
  | c :: rest => c :: fixTrailingEndComma rest

def fixTrailingCommas (content : String) : String :=
  ⟨fixTrailingEndComma (fixTrailingCommasGo content.data.length content.data)⟩

/-- Source `fixMissingQuotes`:
`content.replace(/([{,]\s*)([a-zA-Z_$][a-zA-Z0-9_$]*)\s*:/g, "$1\"$2\":")`. -/
def isIdentStart (c : Char) : Bool :=
  (('a' ≤ c && c ≤ 'z') || ('A' ≤ c && c ≤ 'Z') || c = '_' || c = '$')

def isIdentChar (c : Char) : Bool := isIdentStart c || isDigit c

def fixMissingQuotesGo : Nat → List Char → List Char
  | _, [] => []
  | 0, cs => cs
  | fuel + 1, c :: rest =>
    if c = '\x7b' || c = ',' then
      let ws := rest.takeWhile isWsChar
      match rest.dropWhile isWsChar with
      | d :: ds =>
        if isIdentStart d then
          let identTail := ds.takeWhile isIdentChar
          match (ds.dropWhile isIdentChar).dropWhile isWsChar with
          | ':' :: afterColon =>
            c :: ws ++ '"' :: d :: identTail ++ '"' :: ':' ::
              fixMissingQuotesGo fuel afterColon
          | _ => c :: fixMissingQuotesGo fuel rest
        else c :: fixMissingQuotesGo fuel rest
      | [] => c :: fixMissingQuotesGo fuel rest
    else c :: fixMissingQuotesGo fuel rest

def fixMissingQuotes (content : String) : String :=
  ⟨fixMissingQuotesGo content.data.length content.data⟩

/-- Source `fixUnbalancedBraces`: count opening/closing braces and brackets,
append missing closers, and strip surplus closers from the end
(via `lastIndexOf` removal). -/
def fixUnbalancedBraces (content : String) : String :=
  let cs := content.data
  let openBraces := cs.count '\x7b'
  let closeBraces := cs.count '\x7d'
  let openBrackets := cs.count '['
  let closeBrackets := cs.count ']'
  let fixed1 :=
    if openBraces > closeBraces then
      cs ++ (List.replicate (openBraces - closeBraces) '\x7d')
    else cs
  let fixed2 :=
    if openBrackets > closeBrackets then
      fixed1 ++ (List.replicate (openBrackets - closeBrackets) ']')
    else fixed1
  if closeBraces > openBraces || closeBrackets > openBrackets then
    let extraBraces := closeBraces - openBraces
    let extraBrackets := closeBrackets - openBrackets
    let afterBraces := (List.range extraBraces).foldl
      (fun acc _ => removeLastChar acc '\x7d') fixed2
    let afterBrackets := (List.range extraBrackets).foldl
      (fun acc _ => removeLastChar acc ']') afterBraces
    ⟨afterBrackets⟩
  else ⟨fixed2⟩

/-- Source `fixTruncatedString`: trim; if the content does not end in `"`,
find the last `"` and, when it is not backslash-escaped, append a
closing quote. -/
def fixTruncatedString (content : String) : String :=
  let fixed := jsTrim content
  if jsEndsWith fixed "\"" = false then
    let rev := fixed.data.reverse
    let tailPart := rev.takeWhile (fun c => c ≠ '"')
    if tailPart.length = rev.length then
      fixed
    else
      let beforeRev := (rev.drop (tailPart.length + 1))
      let escCount := (beforeRev.takeWhile (fun c => c = '\\')).length
      if escCount % 2 = 1 then fixed else fixed ++ "\""
  else fixed

/-- Source `createMinimalValidJSON`: tagged minimal skeleton by root shape. -/
def createMinimalValidJSON (content : String) : String :=
  let trimmed := jsTrim content
  if jsStartsWith trimmed "\x7b" then
    "\x7b\"data\": \"[Original JSON was malformed and truncated]\", \"error\": \"truncated\"\x7d"
  else if jsStartsWith trimmed "[" then
    "[\"[Original array was malformed and truncated]\"]"
  else
    "\"[Original content was not valid JSON]\""

/-- Source `attemptRepair`: the five repair attempts in order; each candidate is
accepted only if it parses; the first success wins; otherwise the
failure record with the original `JSON.parse` error is returned. -/
def attemptRepair (content : String) (originalError : String) : ValidationResult :=
  let tryRep := fun (repaired : String) (nm : String) =>
    if jsonParses repaired then
      some { valid := true, fixedContent := some repaired,
             suggestions := ["Repaired using " ++ nm] }
    else none
  match tryRep (fixTrailingCommas content) "fixTrailingCommas" with
  | some r => r
  | none =>
  match tryRep (fixMissingQuotes content) "fixMissingQuotes" with
  | some r => r
  | none =>
  match tryRep (fixUnbalancedBraces content) "fixUnbalancedBraces" with
  | some r => r
  | none =>
  match tryRep (fixTruncatedString content) "fixTruncatedString" with
  | some r => r
  | none =>
  match tryRep (createMinimalValidJSON content) "createMinimalValidJSON" with
  | some r => r
  | none =>
    { valid := false, error := some originalError,
      suggestions :=
        ["JSON is severely malformed and cannot be automatically repaired",
         "Consider using a smaller truncation size",
         "Check the original data source for corruption"] }

/-- Source `JSONValidator.validateAndFix`: direct parse, else the repair chain.
The thrown parse error message is abstracted as the fixed marker
`"SyntaxError"`. -/
def validateAndFix (content : String) : ValidationResult :=
  if jsonParses content then { valid := true }
  else attemptRepair content "SyntaxError"

/-- Exported wrapper `validateAndFixJSON`. -/
def validateAndFixJSON (content : String) : ValidationResult :=
  validateAndFix content

/-! ## Syntax-aware truncator
(`syntax-aware-truncator.ts`, class `SyntaxAwareTruncator`) -/

/-- Source `TruncationResult` of the truncator. -/
structure TruncationResult where
  content : String
  truncated : Bool
  originalSize : Nat
  finalSize : Nat
  syntaxOk : Bool
  truncationMethod : String

/-! Scanners for the `hasCodePatterns` regular expressions. -/

/-- Try `kw` followed by at least one `\s` at the head of `cs`; on success
return the input after the keyword and the whitespace run. -/
def chompKwWs1 (kw : String) (cs : List Char) : Option (List Char) :=
  if prefixAt kw.data cs then
    let rest := cs.drop kw.data.length
    match rest with
    | c :: _ => if isWsChar c then some (rest.dropWhile isWsChar) else none
    | [] => none
  else none

/-- Try `kw` followed by any `\s*` run. -/
def chompKwWs0 (kw : String) (cs : List Char) : Option (List Char) :=
  if prefixAt kw.data cs then some ((cs.drop kw.data.length).dropWhile isWsChar)
  else none

/-- Does a matcher succeed at some position of `cs`
(a JS `regex.test` for an unanchored pattern)? -/
def scanTest (m : List Char → Bool) : List Char → Bool
  | [] => m []
  | c :: rest => m (c :: rest) || scanTest m rest

/-- Source `/kw\s+\w+/.test(content)` for a literal keyword `kw`. -/
def testKwWsWord (kw : String) (content : String) : Bool :=
  scanTest
    (fun cs =>
      match chompKwWs1 kw cs with
      | some rest => (match rest with | c :: _ => isWordChar c | [] => false)
      | none => false)
    content.data

/-- Source `/kw\s*\w+\s*=/.test(content)`-shaped patterns: keyword, `\s+`, word,
`\s*`, then a literal `=` (the `const/let/var x =` checks). -/
def testKwWsWordEq (kw : String) (content : String) : Bool :=
  scanTest
    (fun cs =>
      match chompKwWs1 kw cs with
      | some rest =>
        match rest with
        | c :: _ =>
          if isWordChar c then
            match ((rest.dropWhile isWordChar).dropWhile isWsChar) with
            | '=' :: _ => true
            | _ => false
          else false
        | [] => false
      | none => false)
    content.data

/-- Source `/export\s+(default\s+)?/.test(content)`: just `export` plus `\s`
(the optional group never blocks a test). -/
def testExportWs (content : String) : Bool :=
  scanTest
    (fun cs => (chompKwWs1 "export" cs).isSome)
    content.data

/-- Source `/import\s+.+from/.test(content)`: `import`, `\s+`, then at least one
non-newline character before `from` on the same line (`.` does not match
a newline). -/
def testImportFrom (content : String) : Bool :=
  scanTest
    (fun cs =>
      match chompKwWs1 "import" cs with
      | some rest =>
        let lineRest := rest.takeWhile (fun c => c ≠ '\n')
        containsSub (lineRest.drop 1) "from".data
      | none => false)
    content.data

/-- Source `/=>\s*{/.test(content)`. -/
def testArrowBrace (content : String) : Bool :=
  scanTest
    (fun cs =>
      match cs with
      | '=' :: '>' :: rest =>
        (match rest.dropWhile isWsChar with | '\x7b' :: _ => true | _ => false)
      | _ => false)
    content.data

/-- Source `/kw\s*\(/.test(content)` (the `if (`, `for (`, `while (` checks). -/
def testKwWsParen (kw : String) (content : String) : Bool :=
  scanTest
    (fun cs =>
      if prefixAt kw.data cs then
        (match (cs.drop kw.data.length).dropWhile isWsChar with
         | '(' :: _ => true | _ => false)
      else false)
    content.data

/-- Source `hasCodePatterns` of the truncator: the twelve code regexes. -/
def hasCodePatterns (content : String) : Bool :=
  testKwWsWord "function" content ||
  testKwWsWord "class" content ||
  testKwWsWord "interface" content ||
  testExportWs content ||
  testImportFrom content ||
  testKwWsWordEq "const" content ||
  testKwWsWordEq "let" content ||
  testKwWsWordEq "var" content ||
  testArrowBrace content ||
  testKwWsParen "if" content ||
  testKwWsParen "for" content ||
  testKwWsParen "while" content

/-- Source `detectContentType`: ordered checks — JSON (bracketed and parses),
code (TypeScript when `interface `/`: string`/`export ` occur), markup,
codebase-tree, else `"text"`. -/
def detectContentType (content : String) : String :=
  let trimmed := jsTrim content
  if ((jsStartsWith trimmed "\x7b" && jsEndsWith trimmed "\x7d") ||
      (jsStartsWith trimmed "[" && jsEndsWith trimmed "]")) &&
      jsonParses content then
    "json"
  else if hasCodePatterns content then
    if jsIncludes content "interface " || jsIncludes content ": string" ||
        jsIncludes content "export " then
      "typescript"
    else "javascript"
  else if jsStartsWith trimmed "<" && jsIncludes trimmed ">" then
    (if jsIncludes content "<!DOCTYPE" then "html" else "xml")
  else if jsIncludes content "├──" || jsIncludes content "└──" ||
      jsIncludes content "│" then
    "codebase-tree"
  else "text"

/-- Source `truncateGeneric`: keep the first and last 40% of the budgeted line
count around a marker.  Note `slice(-0)` returns the whole array. -/
def truncateGeneric (content : String) (maxSize : Nat) : TruncationResult :=
  let lines := jsLines content
  let targetLines := maxSize / 50
  if lines.length ≤ targetLines then
    { content := content, truncated := false,
      originalSize := utf8Len content, finalSize := utf8Len content,
      syntaxOk := true, truncationMethod := "none" }
  else
    let keepStart := (targetLines * 4) / 10
    let keepEnd := (targetLines * 4) / 10
    let result := String.intercalate "\n"
      (jsSliceTake keepStart lines ++
        ["\n// [TRUNCATED: " ++ toString (lines.length - targetLines) ++
          " lines omitted]\n"] ++
        jsSliceLast keepEnd lines)
    { content := result, truncated := true,
      originalSize := utf8Len content, finalSize := utf8Len result,
      syntaxOk := true, truncationMethod := "generic-safe" }

/-- Source `truncateMarkup` falls through to the generic strategy. -/
def truncateMarkup (content : String) (maxSize : Nat) : TruncationResult :=
  truncateGeneric content maxSize

/-! ### Codebase-tree strategy -/

/-- Count of tree glyphs `│ ├ └` in a line (its depth). -/
def treeDepth (line : String) : Nat :=
  (line.data.filter (fun c => c = '│' || c = '├' || c = '└')).length

/-- Source `sampleLines`: even sampling by a stride of `⌊n/max⌋`.  With
`maxLines = 0` (and a non-empty input) the JS stride is `Infinity` and no
line is kept. -/
def sampleLines (lines : List String) (maxLines : Nat) : List String :=
  if lines.length ≤ maxLines then lines
  else if maxLines = 0 then []
  else
    let step := lines.length / maxLines
    let idxs := (List.range lines.length).filter (fun i => i % step = 0)
    ((idxs.take maxLines).filterMap (fun i => lines.get? i))

/-- One level of `preserveTreeStructure`: collect the per-depth samples. -/
def treeLevels (lines : List String) (maxDepth : Nat) :
    Nat → Nat → List String
  | _, 0 => []
  | remaining, fuelDepth + 1 =>
    let depth := maxDepth + 1 - (fuelDepth + 1)
    if depth > min maxDepth 5 then []
    else
      let linesAtDepth := lines.filter (fun line => treeDepth line = depth)
      let quota := remaining / (maxDepth - depth + 1)
      let sampled := sampleLines linesAtDepth quota
      if remaining - sampled.length = 0 then sampled
      else sampled ++ treeLevels lines maxDepth (remaining - sampled.length) fuelDepth

/-- Insertion into a list sorted by a boolean comparator (stable). -/
def insSorted (le : α → α → Bool) (a : α) : List α → List α
  | [] => [a]
  | b :: bs => if le a b then a :: b :: bs else b :: insSorted le a bs

/-- Stable sort by a boolean comparator; models `Array.prototype.sort`
with a `(x, y) => key(x) - key(y)` comparator (JS sort is stable). -/
def stableSortBy (le : α → α → Bool) : List α → List α
  | [] => []
  | a :: as_ => insSorted le a (stableSortBy le as_)

/-- Source `preserveTreeStructure`: bucket lines by depth, keep a per-depth
quota, and re-sort the samples by their original position
(`lines.indexOf`). -/
def preserveTreeStructure (lines : List String) (targetLines : Nat) :
    List String :=
  let depths := lines.map treeDepth
  let maxDepth := depths.foldl max 0
  let result := treeLevels lines maxDepth targetLines (maxDepth + 1)
  stableSortBy (fun a b => lines.indexOf a ≤ lines.indexOf b) result

/-- Source `truncateCodebaseTree`. -/
def truncateCodebaseTree (content : String) (maxSize : Nat) :
    TruncationResult :=
  let lines := jsLines content
  let targetLines := maxSize / 30
  if lines.length ≤ targetLines then truncateGeneric content maxSize
  else
    let result := String.intercalate "\n" (preserveTreeStructure lines targetLines)
    { content := result, truncated := true,
      originalSize := utf8Len content, finalSize := utf8Len result,
      syntaxOk := true, truncationMethod := "tree-structure-preservation" }

/-! ### Code-block strategy -/

/-- A detected code block: line span, importance, block type. -/
structure CodeBlock where
  startLine : Nat
  endLine : Nat
  importance : Nat
  type : String

/-- Chomp an optional `kw\s+` group (regex `(kw\s+)?`): when the keyword
with trailing whitespace is present, consume it, otherwise leave the
input unchanged. -/
def chompOptKwWs1 (kw : String) (cs : List Char) : List Char :=
  match chompKwWs1 kw cs with
  | some rest => rest
  | none => cs

/-- Source `^(export\s+)?(default\s+)?kw\s+\w+` at a line start. -/
def lineStartsDeclWord (kw : String) (line : String) : Bool :=
  let cs := chompOptKwWs1 "default" (chompOptKwWs1 "export" line.data)
  match chompKwWs1 kw cs with
  | some rest => (match rest with | c :: _ => isWordChar c | [] => false)
  | none => false

/-- Source `^(export\s+)?const\s+\w+\s*=` at a line start. -/
def lineStartsConstEq (line : String) : Bool :=
  let cs := chompOptKwWs1 "export" line.data
  match chompKwWs1 "const" cs with
  | some rest =>
    match rest with
    | c :: _ =>
      if isWordChar c then
        match (rest.dropWhile isWordChar).dropWhile isWsChar with
        | '=' :: _ => true
        | _ => false
      else false
    | [] => false
  | none => false

/-- Source `isImportantLineStart` of the truncator (the `language` argument is
unused in the source). -/
def isImportantLineStart (line : String) : Bool :=
  lineStartsDeclWord "function" line ||
  lineStartsDeclWord "class" line ||
  (match chompOptKwWs1 "export" line.data |> chompKwWs1 "interface" with
   | some rest => (match rest with | c :: _ => isWordChar c | [] => false)
   | none => false) ||
  (match chompOptKwWs1 "export" line.data |> chompKwWs1 "type" with
   | some rest => (match rest with | c :: _ => isWordChar c | [] => false)
   | none => false) ||
  lineStartsConstEq line ||
  (chompKwWs1 "import" line.data).isSome

/-- Source `getBlockType`. -/
def getBlockType (line : String) : String :=
  if jsIncludes line "function" then "function"
  else if jsIncludes line "class" then "class"
  else if jsIncludes line "interface" then "interface"
  else if jsIncludes line "type" then "type"
  else if jsIncludes line "import" then "import"
  else if jsIncludes line "const" then "const"
  else "other"

/-- Source `getBlockImportance`. -/
def getBlockImportance (line : String) : Nat :=
  5 + (if jsIncludes line "export" then 3 else 0)
    + (if jsIncludes line "default" then 2 else 0)
    + (if jsIncludes line "class" then 2 else 0)
    + (if jsIncludes line "interface" then 2 else 0)
    + (if jsIncludes line "function" then 1 else 0)
    + (if jsIncludes line "import" then 1 else 0)

/-- The loop state of `extractImportantCodeBlocks`. -/
structure BlockScan where
  blocks : List CodeBlock
  current : Option (Nat × String × Nat)
  braceCount : Int

/-- One iteration of the `extractImportantCodeBlocks` loop at line
index `i`. -/
def blockScanStep (st : BlockScan) (i : Nat) (rawLine : String) : BlockScan :=
  let line := jsTrim rawLine
  let st1 :=
    if isImportantLineStart line then
      let closed := match st.current with
        | some (s, ty, imp) =>
          st.blocks ++ [{ startLine := s, endLine := i - 1,
                          importance := imp, type := ty }]
        | none => st.blocks
      { blocks := closed,
        current := some (i, getBlockType line, getBlockImportance line),
        braceCount := 0 }
    else st
  match st1.current with
  | some (s, ty, imp) =>
    let bc := st1.braceCount + (line.data.count '\x7b' : Int)
      - (line.data.count '\x7d' : Int)
    if bc ≤ 0 && jsIncludes line "\x7d" then
      { blocks := st1.blocks ++ [{ startLine := s, endLine := i,
                                   importance := imp, type := ty }],
        current := none, braceCount := bc }
    else { st1 with braceCount := bc }
  | none => st1

/-- Source `extractImportantCodeBlocks`: scan the lines, close the still-open
block at the end, and sort descending by importance (JS stable sort). -/
def extractImportantCodeBlocks (lines : List String) : List CodeBlock :=
  let final : BlockScan := (lines.enum.foldl (fun st p => blockScanStep st p.1 p.2)
    { blocks := [], current := none, braceCount := 0 })
  let blocks := match final.current with
    | some (s, ty, imp) =>
      final.blocks ++ [{ startLine := s, endLine := lines.length - 1,
                         importance := imp, type := ty }]
    | none => final.blocks
  stableSortBy (fun a b => b.importance ≤ a.importance) blocks

/-- Source `buildTruncatedCode`: imports first (bounded by 10% of the budget,
an IEEE `targetLines * 0.1` modelled as the exact rational), then stub
comments for the remaining blocks, then the final marker. -/
def buildTruncatedCode (blocks : List CodeBlock) (targetLines : Nat) :
    String × Bool :=
  let importBlocks := blocks.filter (fun b => b.type = "import")
  let step1 := importBlocks.foldl
    (fun (acc : List String × Nat) block =>
      let blockSize := block.endLine - block.startLine + 1
      if (((acc.2 + blockSize : Nat) : ℚ)) ≤ (targetLines : ℚ) / 10 then
        (acc.1 ++ ["// Lines " ++ toString (block.startLine + 1) ++ "-" ++
          toString (block.endLine + 1)], acc.2 + blockSize)
      else acc)
    ([], 0)
  let otherBlocks := blocks.filter (fun b => b.type ≠ "import")
  let step2 := otherBlocks.foldl
    (fun (acc : List String × Nat) block =>
      let blockSize := block.endLine - block.startLine + 1
      if acc.2 + blockSize ≤ targetLines then
        (acc.1 ++
          ["\n// " ++ asciiUpper block.type ++ ": Lines " ++
            toString (block.startLine + 1) ++ "-" ++ toString (block.endLine + 1),
           "// [Block truncated for size - original had " ++
            toString blockSize ++ " lines]"], acc.2 + 3)
      else acc)
    step1
  (String.intercalate "\n"
    (step2.1 ++ ["\n// [TRUNCATED: Original file had many more lines]"]), true)

/-- Source `truncateCode`. -/
def truncateCode (content : String) (maxSize : Nat) : TruncationResult :=
  let lines := jsLines content
  let targetLines := maxSize / 50
  if lines.length ≤ targetLines then truncateGeneric content maxSize
  else
    let blocks := extractImportantCodeBlocks lines
    let result := buildTruncatedCode blocks targetLines
    { content := result.1, truncated := true,
      originalSize := utf8Len content, finalSize := utf8Len result.1,
      syntaxOk := result.2, truncationMethod := "code-block-preservation" }

/-! ### JSON strategy -/

/-- Source `truncateArrays`: arrays longer than `maxItems` keep their first
`maxItems` elements plus a placeholder string (without recursing into
the kept elements); shorter arrays and objects recurse. -/
def truncateArrays (maxItems : Nat) : Json → Json
  | Json.arr xs =>
    if xs.length > maxItems then
      Json.arr (jsSliceTake maxItems xs ++
        [Json.str ("[... " ++ toString (xs.length - maxItems) ++
          " more items truncated]")])
    else Json.arr (xs.attach.map (fun x => truncateArrays maxItems x.1))
  | Json.obj kvs =>
    Json.obj (kvs.attach.map (fun kv => (kv.1.1, truncateArrays maxItems kv.1.2)))
  | v => v
termination_by v => sizeOf v
decreasing_by
  · have h := List.sizeOf_lt_of_mem x.2
    simp only [Json.arr.sizeOf_spec]
    omega
  · have h := List.sizeOf_lt_of_mem kv.2
    obtain ⟨⟨k, v⟩, hm⟩ := kv
    simp only [Json.obj.sizeOf_spec, Prod.mk.sizeOf_spec] at h ⊢
    omega

/-- The key denylist of `removeUnimportantProps`. -/
def unimportantKeys : List String :=
  ["debug", "trace", "verbose", "metadata", "stats", "cache",
   "internal", "private", "_id", "timestamp", "created", "updated",
   "logs", "history", "temp", "tmp", "deprecated"]

/-- Source `removeUnimportantProps`: drop keys whose lower-casing contains a
denylist entry. -/
def removeUnimportantProps : Json → Json
  | Json.arr xs => Json.arr (xs.attach.map (fun x => removeUnimportantProps x.1))
  | Json.obj kvs =>
    Json.obj ((kvs.attach.filter (fun kv =>
        !(unimportantKeys.any (fun u => jsIncludes (asciiLower kv.1.1) (asciiLower u))))).map
      (fun kv => (kv.1.1, removeUnimportantProps kv.1.2)))
  | v => v
termination_by v => sizeOf v
decreasing_by
  · have h := List.sizeOf_lt_of_mem x.2
    simp only [Json.arr.sizeOf_spec]
    omega
  · have h := List.sizeOf_lt_of_mem kv.2
    obtain ⟨⟨k, v⟩, hm⟩ := kv
    simp only [Json.obj.sizeOf_spec, Prod.mk.sizeOf_spec] at h ⊢
    omega

/-- Source `truncateJSONStrings`: leaf strings longer than `maxStringLength`
code units are cut to `maxStringLength − 20` plus a marker. -/
def truncateJSONStrings (maxStringLength : Nat) : Json → Json
  | Json.str s =>
    if s.data.length > maxStringLength then
      Json.str (jsSubstringTo s (maxStringLength - 20) ++ "...[truncated]")
    else Json.str s
  | Json.arr xs =>
    Json.arr (xs.attach.map (fun x => truncateJSONStrings maxStringLength x.1))
  | Json.obj kvs =>
    Json.obj (kvs.attach.map (fun kv => (kv.1.1, truncateJSONStrings maxStringLength kv.1.2)))
  | v => v
termination_by v => sizeOf v
decreasing_by
  · have h := List.sizeOf_lt_of_mem x.2
    simp only [Json.arr.sizeOf_spec]
    omega
  · have h := List.sizeOf_lt_of_mem kv.2
    obtain ⟨⟨k, v⟩, hm⟩ := kv
    simp only [Json.obj.sizeOf_spec, Prod.mk.sizeOf_spec] at h ⊢
    omega

/-- Source `typeof value === "string"` for a JSON value. -/
def isJsonStr : Json → Bool
  | Json.str _ => true
  | _ => false

/-- Source `typeof value === "object"` for a JSON value: objects, arrays and
`null` (JS `typeof null` is `"object"`). -/
def isJsonObjLike : Json → Bool
  | Json.obj _ => true
  | Json.arr _ => true
  | Json.nul => true
  | _ => false

/-- The string-leaf cut of `createMinimalJSON`: strings over 100 code
units keep their first 100 plus an ellipsis. -/
def minimalStr : Json → Json
  | Json.str s =>
    if s.data.length > 100 then Json.str (jsSubstringTo s 100 ++ "...")
    else Json.str s
  | v => v

/-- Source `createMinimalJSON` of the truncator: arrays keep their first element
plus a marker; objects keep their first three properties (string values
cut to 100 plus an ellipsis, object-typed values — objects, arrays,
`null` — recurse) plus a count marker. -/
def createMinimalJSON : Json → Json
  | Json.arr xs =>
    match xs with
    | [] => Json.arr []
    | x :: rest =>
      Json.arr [x, Json.str ("[... " ++ toString rest.length ++
        " items truncated for size]")]
  | Json.obj kvs =>
    if kvs.length = 0 then Json.obj []
    else
      let kept := (jsSliceTake 3 kvs.attach).map (fun kv =>
        if isJsonStr kv.1.2 then (kv.1.1, minimalStr kv.1.2)
        else if isJsonObjLike kv.1.2 then (kv.1.1, createMinimalJSON kv.1.2)
        else (kv.1.1, kv.1.2))
      Json.obj (kept ++
        (if kvs.length > 3 then
          [("...", Json.str (toString (kvs.length - 3) ++ " more properties truncated"))]
        else []))
  | v => v
termination_by v => sizeOf v
decreasing_by
  have h := List.sizeOf_lt_of_mem kv.2
  obtain ⟨⟨k, v⟩, hm⟩ := kv
  simp only [Json.obj.sizeOf_spec, Prod.mk.sizeOf_spec] at h ⊢
  omega

/-- Source `truncateJSONObject`: try array truncation, property removal and
string truncation in order, taking the first whose pretty serialization
fits; otherwise the minimal skeleton. -/
def truncateJSONObject (v : Json) (maxSize : Nat) : TruncationResult :=
  let attempts : List (Json × String) :=
    [(truncateArrays 10 v, "array-truncation"),
     (removeUnimportantProps v, "property-removal"),
     (truncateJSONStrings 1000 v, "string-truncation")]
  let originalSize := utf8Len (stringifyCompact v)
  match attempts.filterMap (fun a =>
      let s := stringifyPretty a.1
      if utf8Len s ≤ maxSize then some (s, a.2) else none) with
  | (s, method) :: _ =>
    { content := s, truncated := true, originalSize := originalSize,
      finalSize := utf8Len s, syntaxOk := true, truncationMethod := method }
  | [] =>
    let minimalString := stringifyPretty (createMinimalJSON v)
    { content := minimalString, truncated := true, originalSize := originalSize,
      finalSize := utf8Len minimalString, syntaxOk := true,
      truncationMethod := "minimal-json" }

/-- Source `findArrayTruncationPoint`: scan lines accumulating byte size,
remembering the last line boundary ending in `,` or `]`; stop at 80% of
the budget (`maxSize * 0.8` compared exactly). -/
def findArrayTruncationPoint (content : String) (maxSize : Nat) : Nat :=
  let step := fun (acc : Nat × Nat × Bool) (line : String) =>
    -- acc = (currentSize, safePoint, stopped)
    if acc.2.2 then acc
    else
      let currentSize := acc.1 + utf8Len (line ++ "\n")
      if 5 * currentSize > 4 * maxSize then (currentSize, acc.2.1, true)
      else if jsEndsWith (jsTrim line) "," || jsEndsWith (jsTrim line) "]" then
        (currentSize, currentSize, false)
      else (currentSize, acc.2.1, false)
  ((jsLines content).foldl step (0, 0, false)).2.1

/-- Source `findObjectTruncationPoint`: as above, tracking brace depth, with
safe points at lines ending in `,` or `}` at depth ≥ 0. -/
def findObjectTruncationPoint (content : String) (maxSize : Nat) : Nat :=
  let step := fun (acc : Nat × Nat × Int × Bool) (line : String) =>
    -- acc = (currentSize, safePoint, braceDepth, stopped)
    if acc.2.2.2 then acc
    else
      let currentSize := acc.1 + utf8Len (line ++ "\n")
      if 5 * currentSize > 4 * maxSize then (currentSize, acc.2.1, acc.2.2.1, true)
      else
        let depth := acc.2.2.1 + (line.data.count '\x7b' : Int)
          - (line.data.count '\x7d' : Int)
        if (jsEndsWith (jsTrim line) "," || jsEndsWith (jsTrim line) "\x7d") &&
            depth ≥ 0 then
          (currentSize, currentSize, depth, false)
        else (currentSize, acc.2.1, depth, false)
  ((jsLines content).foldl step (0, 0, 0, false)).2.1

/-- The result of `validateForTruncation`; a `point` of `0` doubles as
"no suggested point" (the caller tests it for JS truthiness). -/
structure TruncationCheck where
  canTruncate : Bool
  point : Nat := 0
  reason : Option String := none

/-- Source `validateForTruncation`. -/
def validateForTruncation (content : String) (maxSize : Nat) : TruncationCheck :=
  match jsonParse content with
  | some (Json.arr _) =>
    { canTruncate := true, point := findArrayTruncationPoint content maxSize }
  | some (Json.obj _) =>
    { canTruncate := true, point := findObjectTruncationPoint content maxSize }
  | some _ =>
    { canTruncate := false,
      reason := some "JSON is a primitive value and cannot be safely truncated" }
  | none =>
    { canTruncate := false,
      reason := some "JSON is malformed and cannot be analyzed for truncation" }

/-- Source `safeJSONTruncate`: repair, find a safe point, cut there and
re-validate; fall back to the (possibly repaired) content. -/
def safeJSONTruncate (content0 : String) (maxSize : Nat) : String :=
  let validation := validateAndFixJSON content0
  let afterRepair : Option String :=
    if validation.valid = false then
      match validation.fixedContent with
      | some f => some f
      | none => none
    else some content0
  match afterRepair with
  | none =>
    "\x7b\"error\": \"JSON was malformed and could not be repaired\", \"original_size\": "
      ++ toString (utf8Len content0) ++ "\x7d"
  | some content =>
    let info := validateForTruncation content maxSize
    if info.canTruncate = false then content
    else if info.point ≠ 0 then
      let truncated := jsSubstringTo content info.point
      let finalValidation := validateAndFixJSON truncated
      if finalValidation.valid then
        (match finalValidation.fixedContent with
         | some f => f
         | none => truncated)
      else content
    else content

/-- Source `truncateJSON`: validate/repair, parse, truncate the parsed value
and re-validate; on a parse failure fall back to `safeJSONTruncate`. -/
def truncateJSON (content : String) (maxSize : Nat) : TruncationResult :=
  let validation := validateAndFixJSON content
  let working : Option String :=
    if validation.valid = false then
      match validation.fixedContent with
      | some f => some f
      | none => none
    else some content
  match working with
  | none => truncateGeneric content maxSize
  | some workingContent =>
    match jsonParse workingContent with
    | some parsed =>
      let result := truncateJSONObject parsed maxSize
      let finalValidation := validateAndFixJSON result.content
      if finalValidation.valid = false then
        match finalValidation.fixedContent with
        | some f =>
          { result with
            content := f
            truncationMethod := result.truncationMethod ++ "-with-repair" }
        | none => result
      else result
    | none =>
      let safeResult := safeJSONTruncate workingContent maxSize
      { content := safeResult, truncated := true,
        originalSize := utf8Len content, finalSize := utf8Len safeResult,
        syntaxOk := true, truncationMethod := "safe-json-fallback" }

/-- Source `SyntaxAwareTruncator.truncate`: within-budget contents are returned
unchanged; otherwise dispatch on the given or detected content type
(JS `contentType || detectContentType(content)`: the empty string is
falsy). -/
def truncate (content : String) (maxSize : Nat) (contentType : Option String) :
    TruncationResult :=
  let originalSize := utf8Len content
  if originalSize ≤ maxSize then
    { content := content, truncated := false, originalSize := originalSize,
      finalSize := originalSize, syntaxOk := true, truncationMethod := "none" }
  else
    let detectedType := match contentType with
      | some t => if t = "" then detectContentType content else t
      | none => detectContentType content
    if detectedType = "json" then truncateJSON content maxSize
    else if detectedType = "javascript" || detectedType = "typescript" then
      truncateCode content maxSize
    else if detectedType = "xml" || detectedType = "html" then
      truncateMarkup content maxSize
    else if detectedType = "codebase-tree" then
      truncateCodebaseTree content maxSize
    else truncateGeneric content maxSize

/-! ## Streaming message reducer
(`streaming-message-reducer.ts`, class `StreamingMessageManager`) -/

/-- The kind of a LangChain message (`HumanMessage`, `AIMessage`,
`ToolMessage`, `SystemMessage`). -/
inductive MsgKind where
  | human | ai | tool | system
deriving DecidableEq

/-- A tool call carried by an AI message; `argsJson` is the JSON
serialization of its arguments record. -/
structure MsgToolCall where
  name : String
  argsJson : String
deriving DecidableEq

/-- A message of the streaming reducer.  `content` is its textual
content (multi-part contents, which the source folds through
`JSON.stringify`, are outside this model); `additionalKwargs` carries
`JSON.stringify(message.additional_kwargs)` (`"{}"` for the default
empty record, which JS treats as truthy). -/
structure Msg where
  kind : MsgKind
  content : String
  toolCalls : List MsgToolCall := []
  id : Option String := none
  additionalKwargs : String := "\x7b\x7d"
deriving DecidableEq

/-- Source `StreamingMessageConfig`. -/
structure StreamingMessageConfig where
  maxMessages : Nat
  maxTotalSizeBytes : Nat
  preserveImportantMessages : Bool
  compressionEnabled : Bool

/-- Source `DEFAULT_STREAMING_CONFIG`. -/
def DEFAULT_STREAMING_CONFIG : StreamingMessageConfig :=
  { maxMessages := 200
    maxTotalSizeBytes := 50 * 1024 * 1024
    preserveImportantMessages := true
    compressionEnabled := true }

/-- Source `JSON.stringify(message.tool_calls)`. -/
def stringifyMsgToolCalls (tcs : List MsgToolCall) : String :=
  "[" ++ String.intercalate ","
    (tcs.map (fun tc =>
      "\x7b\"name\":" ++ quoteJsonStr tc.name ++ ",\"args\":" ++ tc.argsJson ++ "\x7d"))
  ++ "]"

/-- Source `calculateMessageSize`: content bytes, plus the serialized
`additional_kwargs` (always present on a `BaseMessage`), plus the
serialized tool calls for AI messages (the only kind carrying a
`tool_calls` property; `[]` serializes to two bytes). -/
def calculateMessageSize (m : Msg) : Nat :=
  utf8Len m.content + utf8Len m.additionalKwargs +
    (if m.kind = MsgKind.ai then utf8Len (stringifyMsgToolCalls m.toolCalls) else 0)

/-- Source `calculateTotalSize`. -/
def calculateTotalSize (messages : List Msg) : Nat :=
  messages.foldl (fun total m => total + calculateMessageSize m) 0

/-- Source `calculateMessageImportance` (0–10): human 9; tool 8 on
error/failed content else 6; AI with tool calls 7; `task completed` /
`plan:` / `summary:` add 2 capped at 10; default 5. -/
def calculateMessageImportance (m : Msg) : Nat :=
  let base := 5
  let afterHuman := if m.kind = MsgKind.human then 9 else base
  let afterTool :=
    if m.kind = MsgKind.tool then
      (if jsIncludes (asciiLower m.content) "error" ||
          jsIncludes (asciiLower m.content) "failed" then 8 else 6)
    else afterHuman
  let afterAI :=
    if m.kind = MsgKind.ai && m.toolCalls.length > 0 then 7 else afterTool
  if jsIncludes m.content "task completed" || jsIncludes m.content "plan:" ||
      jsIncludes m.content "summary:" then
    min (afterAI + 2) 10
  else afterAI

/-- Source `createSlidingWindow`: without importance retention, the plain last
`maxMessages`; with it, the last `⌊0.7·maxMessages⌋` regular and the
last `maxMessages − ⌊0.7·maxMessages⌋` important messages, re-sorted by
their original position (`messages.indexOf`, a stable JS sort). -/
def createSlidingWindow (cfg : StreamingMessageConfig) (messages : List Msg) :
    List Msg :=
  if !cfg.preserveImportantMessages then
    jsSliceLast cfg.maxMessages messages
  else
    let important := messages.filter (fun m => calculateMessageImportance m ≥ 7)
    let regular := messages.filter (fun m => calculateMessageImportance m < 7)
    let recentCount := (cfg.maxMessages * 7) / 10
    let importantCount := cfg.maxMessages - recentCount
    let recentMessages := jsSliceLast recentCount regular
    let importantMessages := jsSliceLast importantCount important
    stableSortBy (fun a b => messages.indexOf a ≤ messages.indexOf b)
      (importantMessages ++ recentMessages)

/-- Source `applyStreamingBounds`: within both bounds the list passes through;
otherwise the sliding window is applied.  (The metadata side-table the
source updates before pruning does not influence the result and is
elided.) -/
def applyStreamingBounds (cfg : StreamingMessageConfig) (messages : List Msg) :
    List Msg :=
  if messages.length ≤ cfg.maxMessages &&
      calculateTotalSize messages ≤ cfg.maxTotalSizeBytes then
    messages
  else createSlidingWindow cfg messages

/-- Modelled from the spec: the external LangGraph
`messagesStateReducer` that `reduceMessages` applies first — "Append new
to prev (merging by id when ids coincide, newer fields overwrite)". -/
def streamMerge (prev newMsgs : List Msg) : List Msg :=
  newMsgs.foldl
    (fun acc m =>
      match m.id with
      | some i =>
        if acc.any (fun x => x.id = some i) then
          acc.map (fun x => if x.id = some i then m else x)
        else acc ++ [m]
      | none => acc ++ [m])
    prev

/-- Source `StreamingMessageManager.reduceMessages`. -/
def reduceMessages (cfg : StreamingMessageConfig) (currentMessages newMessages : List Msg) :
    List Msg :=
  applyStreamingBounds cfg (streamMerge currentMessages newMessages)

/-! ## Tool-call criticality analyzer
(`advanced-tool-analyzer.ts`, class `AdvancedToolAnalyzer`) -/

/-- The arguments record of a tool call (`args.path || ""` and friends:
an absent argument and the empty string behave alike). -/
structure FuncArgs where
  path : String := ""
  fileText : String := ""
  newString : String := ""
  command : String := ""
deriving DecidableEq

/-- Source `toolCall.function`: name and arguments. -/
structure FuncInfo where
  name : String := ""
  arguments : FuncArgs := {}
deriving DecidableEq

/-- A tool-call record; `func` models `toolCall.function`, which may be
absent. -/
structure AToolCall where
  func : Option FuncInfo
deriving DecidableEq

/-- Source `ToolCriticality`: level, reason, preserve flag and confidence
(exact decimal fractions for the source's float literals). -/
structure ToolCriticality where
  level : String
  reason : String
  preserveFullContent : Bool
  confidence : ℚ
deriving DecidableEq

/-- Key elements extracted from tool content. -/
structure KeyElements where
  functions : List String
  exports : List String
  types : List String
  configs : List String
deriving DecidableEq

def configPathPatterns : List String :=
  ["config", ".env", "settings", "constants",
   "webpack", "vite", "rollup", "babel",
   "tsconfig", "package.json", "yarn.lock",
   "docker", "nginx", "apache"]

def secretPatterns : List String :=
  ["PROCESS.ENV", "API_KEY", "SECRET", "PASSWORD", "TOKEN",
   "DATABASE_URL", "MONGODB_URI", "REDIS_URL", "JWT_SECRET",
   "STRIPE_", "PAYPAL_", "GOOGLE_CLIENT", "FACEBOOK_APP",
   "AWS_ACCESS_KEY", "AZURE_", "GCP_", "OPENAI_API_KEY"]

def dbPatterns : List String :=
  ["DATABASE", "CONNECTION", "MONGOOSE", "SEQUELIZE", "PRISMA",
   "TYPEORM", "KNEX", "MONGODB", "POSTGRESQL", "MYSQL",
   "REDIS", "CASSANDRA", "DYNAMODB", "FIRESTORE"]

def authPatterns : List String :=
  ["AUTHENTICATION", "AUTHORIZATION", "JWT", "PASSPORT",
   "BCRYPT", "HASH", "LOGIN", "LOGOUT", "REGISTER",
   "OAUTH", "SAML", "LDAP", "SESSION", "COOKIE",
   "MIDDLEWARE", "GUARD", "ROLE", "PERMISSION"]

def apiPatterns : List String :=
  ["APP.GET", "APP.POST", "APP.PUT", "APP.DELETE",
   "ROUTER.", "EXPRESS", "FASTIFY", "KOA",
   "MIDDLEWARE", "CORS", "HELMET", "RATE_LIMIT",
   "API/", "ROUTES/", "ENDPOINTS"]

def buildPatterns : List String :=
  ["dockerfile", "docker-compose", "k8s", "kubernetes",
   "terraform", "ansible", "jenkins", "github/workflows",
   "gitlab-ci", "azure-pipelines", "buildspec",
   "serverless", "vercel", "netlify"]

def businessPatterns : List String :=
  ["SERVICE", "CONTROLLER", "MANAGER", "HANDLER",
   "PROCESSOR", "VALIDATOR", "CALCULATOR", "GENERATOR",
   "EXPORT CLASS", "EXPORT FUNCTION", "ASYNC FUNCTION"]

def componentPatterns : List String :=
  ["USESTATE", "USEEFFECT", "USEREDUCER", "USECONTEXT",
   "USEMEMO", "USECALLBACK", "USEQUERY", "USEMUTATION",
   "ASYNC", "API", "FETCH", "AXIOS"]

def modelPatterns : List String :=
  ["INTERFACE", "TYPE ", "ENUM ", "CLASS ",
   "SCHEMA", "MODEL", "ENTITY", "DTO",
   "EXPORT TYPE", "EXPORT INTERFACE", "EXPORT ENUM"]

def utilityPatterns : List String :=
  ["EXPORT FUNCTION", "EXPORT CONST", "HELPER",
   "UTILITY", "UTILS", "COMMON", "SHARED"]

def isConfigurationFile (pathLower : String) : Bool :=
  configPathPatterns.any (fun p => jsIncludes pathLower p)

def containsSecretsOrEnv (contentUpper pathLower : String) : Bool :=
  secretPatterns.any (fun p => jsIncludes contentUpper p) ||
  jsIncludes pathLower ".env" || jsIncludes pathLower "secret"

def isDatabaseConfig (contentUpper pathLower : String) : Bool :=
  dbPatterns.any (fun p => jsIncludes contentUpper p) ||
  jsIncludes pathLower "database" || jsIncludes pathLower "db"

def isAuthenticationCode (contentUpper pathLower : String) : Bool :=
  authPatterns.any (fun p => jsIncludes contentUpper p) ||
  jsIncludes pathLower "auth" || jsIncludes pathLower "security"

def isAPIOrMiddleware (contentUpper pathLower : String) : Bool :=
  apiPatterns.any (fun p => jsIncludes contentUpper p) ||
  jsIncludes pathLower "/api/" || jsIncludes pathLower "routes" ||
  jsIncludes pathLower "middleware"

def isBuildOrDeploymentConfig (pathLower contentUpper : String) : Bool :=
  buildPatterns.any (fun p => jsIncludes pathLower p) ||
  jsIncludes contentUpper "DEPLOYMENT" || jsIncludes contentUpper "BUILD_"

def isBusinessLogic (contentUpper pathLower : String) : Bool :=
  businessPatterns.any (fun p => jsIncludes contentUpper p) ||
  jsIncludes pathLower "service" || jsIncludes pathLower "controller" ||
  jsIncludes pathLower "logic"

def isSignificantComponent (contentUpper pathLower : String) : Bool :=
  if !(jsIncludes pathLower ".tsx") && !(jsIncludes pathLower ".jsx") then false
  else componentPatterns.any (fun p => jsIncludes contentUpper p)

def isDataModelOrType (contentUpper pathLower : String) : Bool :=
  modelPatterns.any (fun p => jsIncludes contentUpper p) ||
  jsIncludes pathLower "types" || jsIncludes pathLower "models" ||
  jsIncludes pathLower "interfaces"

def isUtilityCode (contentUpper pathLower : String) : Bool :=
  utilityPatterns.any (fun p => jsIncludes contentUpper p) ||
  jsIncludes pathLower "util" || jsIncludes pathLower "helper" ||
  jsIncludes pathLower "common"

/-- Source `checkEssentialCriticality` (the command and tool-name arguments are
unused by the source's checks too). -/
def checkEssentialCriticality (path content : String) : ToolCriticality :=
  let pathLower := asciiLower path
  let contentUpper := asciiUpper content
  if isConfigurationFile pathLower then
    { level := "ESSENTIAL",
      reason := "Critical configuration file that affects system behavior",
      preserveFullContent := true, confidence := 95/100 }
  else if containsSecretsOrEnv contentUpper pathLower then
    { level := "ESSENTIAL",
      reason := "Contains environment variables, secrets, or sensitive configuration",
      preserveFullContent := true, confidence := 98/100 }
  else if isDatabaseConfig contentUpper pathLower then
    { level := "ESSENTIAL",
      reason := "Database configuration or connection setup",
      preserveFullContent := true, confidence := 95/100 }
  else if isAuthenticationCode contentUpper pathLower then
    { level := "ESSENTIAL",
      reason := "Authentication, authorization, or security-related code",
      preserveFullContent := true, confidence := 95/100 }
  else if isAPIOrMiddleware contentUpper pathLower then
    { level := "ESSENTIAL",
      reason := "API routes, middleware, or core server functionality",
      preserveFullContent := true, confidence := 90/100 }
  else if isBuildOrDeploymentConfig pathLower contentUpper then
    { level := "ESSENTIAL",
      reason := "Build, deployment, or infrastructure configuration",
      preserveFullContent := true, confidence := 92/100 }
  else
    { level := "ROUTINE", reason := "", preserveFullContent := false,
      confidence := 0 }

/-- Source `checkImportantCriticality`. -/
def checkImportantCriticality (path content : String) : ToolCriticality :=
  let pathLower := asciiLower path
  let contentUpper := asciiUpper content
  if isBusinessLogic contentUpper pathLower then
    { level := "IMPORTANT",
      reason := "Business logic, services, or core application functionality",
      preserveFullContent := false, confidence := 85/100 }
  else if isSignificantComponent contentUpper pathLower then
    { level := "IMPORTANT",
      reason := "React component with significant logic or state management",
      preserveFullContent := false, confidence := 80/100 }
  else if isDataModelOrType contentUpper pathLower then
    { level := "IMPORTANT",
      reason := "Data models, interfaces, or type definitions",
      preserveFullContent := false, confidence := 85/100 }
  else if isUtilityCode contentUpper pathLower then
    { level := "IMPORTANT",
      reason := "Utility functions or helper code used across the application",
      preserveFullContent := false, confidence := 75/100 }
  else
    { level := "ROUTINE", reason := "", preserveFullContent := false,
      confidence := 0 }

/-- Source `analyzeToolCriticality`: essential checks first, then important,
else routine. -/
def analyzeToolCriticality (toolCall : AToolCall) : ToolCriticality :=
  match toolCall.func with
  | none =>
    { level := "ROUTINE", reason := "No function information available",
      preserveFullContent := false, confidence := 9/10 }
  | some f =>
    let args := f.arguments
    let path := args.path
    let content := if args.fileText ≠ "" then args.fileText else args.newString
    let essentialCheck := checkEssentialCriticality path content
    if essentialCheck.level = "ESSENTIAL" then essentialCheck
    else
      let importantCheck := checkImportantCriticality path content
      if importantCheck.level = "IMPORTANT" then importantCheck
      else
        { level := "ROUTINE",
          reason := "Standard file operations or minor changes",
          preserveFullContent := false, confidence := 7/10 }

/-! ### Key-element extraction (the analyzer's global regexes) -/

/-- A global-regex scan: at each position try the matcher; on success
emit its capture and resume after the match (every matcher below
consumes at least one character), else advance one character — the
behavior of a `while ((match = pattern.exec(content)))` loop. -/
def scanMatches (m : List Char → Option (String × List Char)) :
    Nat → List Char → List String
  | _, [] => []
  | 0, _ => []
  | fuel + 1, c :: rest =>
    match m (c :: rest) with
    | some (cap, after) => cap :: scanMatches m fuel after
    | none => scanMatches m fuel rest

/-- Run a global-regex scan over a string. -/
def scanAll (m : List Char → Option (String × List Char)) (s : String) :
    List String :=
  scanMatches m s.data.length s.data

/-- Capture a non-empty `\w+` run. -/
def matchWord1 (cs : List Char) : Option (String × List Char) :=
  let w := cs.takeWhile isWordChar
  if w.isEmpty then none else some (⟨w⟩, cs.drop w.length)

/-- Chomp an optional `kw\s*` group. -/
def chompOptKwWs0 (kw : String) (cs : List Char) : List Char :=
  match chompKwWs0 kw cs with
  | some rest => rest
  | none => cs

/-- First-match alternation of `kw\s+` chomps (`(?:const|let|var)\s+`
and friends). -/
def chompAltKwWs1 (kws : List String) (cs : List Char) : Option (List Char) :=
  match kws with
  | [] => none
  | kw :: rest =>
    match chompKwWs1 kw cs with
    | some r => some r
    | none => chompAltKwWs1 rest cs

/-- Source `/(?:export\s+)?(?:async\s+)?function\s+(\w+)/g`. -/
def mFunctionDecl (cs : List Char) : Option (String × List Char) :=
  let cs1 := chompOptKwWs1 "export" cs
  let cs2 := chompOptKwWs1 "async" cs1
  match chompKwWs1 "function" cs2 with
  | some rest => matchWord1 rest
  | none => none

/-- Source `/(?:const|let|var)\s+(\w+)\s*=\s*(?:async\s*)?\s*\(/g`. -/
def mVarFuncAssign (cs : List Char) : Option (String × List Char) :=
  match chompAltKwWs1 ["const", "let", "var"] cs with
  | some rest =>
    match matchWord1 rest with
    | some (w, r1) =>
      match r1.dropWhile isWsChar with
      | '=' :: r3 =>
        let r4 := r3.dropWhile isWsChar
        let r5 := chompOptKwWs0 "async" r4
        match r5.dropWhile isWsChar with
        | '(' :: r7 => some (w, r7)
        | _ => none
      | _ => none
    | none => none
  | none => none

/-- Source `/(\w+)\s*:\s*(?:async\s*)?\s*\(/g` (object-method syntax). -/
def mObjMethod (cs : List Char) : Option (String × List Char) :=
  match matchWord1 cs with
  | some (w, r1) =>
    match r1.dropWhile isWsChar with
    | ':' :: r3 =>
      let r4 := r3.dropWhile isWsChar
      let r5 := chompOptKwWs0 "async" r4
      match r5.dropWhile isWsChar with
      | '(' :: r7 => some (w, r7)
      | _ => none
    | _ => none
  | none => none

/-- Source `extractFunctions`: the three patterns in order, first-occurrence
deduplication, first eight kept. -/
def extractFunctions (content : String) : List String :=
  jsSliceTake 8 (dedupFirst
    (scanAll mFunctionDecl content ++ scanAll mVarFuncAssign content ++
      scanAll mObjMethod content))

/-- Source `/export\s+(?:default\s+)?(?:class|function|const|let|var)\s+(\w+)/g`. -/
def mExportDecl (cs : List Char) : Option (String × List Char) :=
  match chompKwWs1 "export" cs with
  | some r1 =>
    let r2 := chompOptKwWs1 "default" r1
    match chompAltKwWs1 ["class", "function", "const", "let", "var"] r2 with
    | some r3 => matchWord1 r3
    | none => none
  | none => none

/-- Source `/export\s*\{\s*([^}]+)\s*\}/g`: the capture is the brace body with
its leading whitespace stripped ([^}]+ is greedy; when the body is all
whitespace, backtracking leaves its final character). -/
def mExportBraces (cs : List Char) : Option (String × List Char) :=
  if prefixAt "export".data cs then
    match (cs.drop 6).dropWhile isWsChar with
    | '\x7b' :: r1 =>
      let inner := r1.takeWhile (fun c => c ≠ '\x7d')
      match r1.drop inner.length with
      | '\x7d' :: r2 =>
        if inner.isEmpty then none
        else
          let strip := inner.dropWhile isWsChar
          if strip.isEmpty then
            match inner.reverse with
            | last :: _ => some (⟨[last]⟩, r2)
            | [] => none
          else some (⟨strip⟩, r2)
      | _ => none
    | _ => none
  else none

/-- Source `/export\s+\*\s+from\s+['"]([^'"]+)['"]/g`. -/
def mExportStar (cs : List Char) : Option (String × List Char) :=
  match chompKwWs1 "export" cs with
  | some r1 =>
    match r1 with
    | '*' :: r2 =>
      match r2 with
      | c :: _ =>
        if isWsChar c then
          let r3 := r2.dropWhile isWsChar
          if prefixAt "from".data r3 then
            match (r3.drop 4) with
            | d :: _ =>
              if isWsChar d then
                match (r3.drop 4).dropWhile isWsChar with
                | q :: r6 =>
                  if q = '\'' || q = '"' then
                    let inner := r6.takeWhile (fun c => c ≠ '\'' && c ≠ '"')
                    match r6.drop inner.length with
                    | q2 :: r7 =>
                      if (q2 = '\'' || q2 = '"') && !inner.isEmpty then
                        some (⟨inner⟩, r7)
                      else none
                    | [] => none
                  else none
                | [] => none
              else none
            | [] => none
          else none
        else none
      | [] => none
    | _ => none
  | none => none

/-- Source `extractExports`: declaration exports, brace-list exports (each list
split on commas, entries trimmed and cut before ` as `), star exports;
`Set` deduplication, first ten kept. -/
def extractExports (content : String) : List String :=
  let braceEntries := (scanAll mExportBraces content).flatMap
    (fun cap => (jsSplit cap ",").map
      (fun e => (jsSplit (jsTrim e) " as ").headD ""))
  jsSliceTake 10 (dedupFirst
    (scanAll mExportDecl content ++ braceEntries ++ scanAll mExportStar content))

/-- Source `/(?:export\s+)?kw\s+(\w+)/g` (interface / type / enum / class). -/
def mTypeDecl (kw : String) (cs : List Char) : Option (String × List Char) :=
  let cs1 := chompOptKwWs1 "export" cs
  match chompKwWs1 kw cs1 with
  | some rest => matchWord1 rest
  | none => none

/-- Source `extractTypes`: the four declaration patterns, first-occurrence
deduplication, first six kept. -/
def extractTypes (content : String) : List String :=
  jsSliceTake 6 (dedupFirst
    (scanAll (mTypeDecl "interface") content ++
     scanAll (mTypeDecl "type") content ++
     scanAll (mTypeDecl "enum") content ++
     scanAll (mTypeDecl "class") content))

/-- Source `/(?:const|let|var)\s+(\w*[Cc]onfig\w*)\s*=/g` and the `Settings`
variant: the capture is the full word run when it contains the marker
and is followed by `\s*=`. -/
def mVarNamedAssign (markers : List String) (cs : List Char) :
    Option (String × List Char) :=
  match chompAltKwWs1 ["const", "let", "var"] cs with
  | some rest =>
    match matchWord1 rest with
    | some (w, r1) =>
      if markers.any (fun mk => jsIncludes w mk) then
        match r1.dropWhile isWsChar with
        | '=' :: r3 => some (w, r3)
        | _ => none
      else none
    | none => none
  | none => none

/-- Source `/process\.env\.(\w+)/g`. -/
def mProcessEnv (cs : List Char) : Option (String × List Char) :=
  if prefixAt "process.env.".data cs then matchWord1 (cs.drop 12)
  else none

/-- Source `/(?:const|let|var)\s+([A-Z_]{3,})\s*=/g` (CONSTANT_CASE). -/
def mConstCase (cs : List Char) : Option (String × List Char) :=
  match chompAltKwWs1 ["const", "let", "var"] cs with
  | some rest =>
    let run := rest.takeWhile (fun c => ('A' ≤ c && c ≤ 'Z') || c = '_')
    if run.length ≥ 3 then
      match (rest.drop run.length).dropWhile isWsChar with
      | '=' :: r3 => some (⟨run⟩, r3)
      | _ => none
    else none
  | none => none

/-- Source `extractConfigs`: config-named and settings-named variables,
`process.env` reads, CONSTANT_CASE variables; first-occurrence
deduplication, first eight kept. -/
def extractConfigs (content : String) : List String :=
  jsSliceTake 8 (dedupFirst
    (scanAll (mVarNamedAssign ["Config", "config"]) content ++
     scanAll (mVarNamedAssign ["Setting", "setting"]) content ++
     scanAll mProcessEnv content ++
     scanAll mConstCase content))

/-- Source `extractKeyElements` of the analyzer: the content is
`file_text || new_string || ""`. -/
def extractKeyElements (toolCall : AToolCall) : KeyElements :=
  let content := match toolCall.func with
    | some f =>
      if f.arguments.fileText ≠ "" then f.arguments.fileText
      else f.arguments.newString
    | none => ""
  { functions := extractFunctions content
    exports := extractExports content
    types := extractTypes content
    configs := extractConfigs content }

/-- Source `createToolSummary`: `command → path | Functions: [...] | Types: [...]
| Exports: [...]`. -/
def createToolSummary (toolCall : AToolCall) : String :=
  let args := match toolCall.func with
    | some f => f.arguments
    | none => ({} : FuncArgs)
  let path := if args.path ≠ "" then args.path else "unknown"
  let command :=
    if args.command ≠ "" then args.command
    else match toolCall.func with
      | some f => if f.name ≠ "" then f.name else "unknown"
      | none => "unknown"
  let keyElements := extractKeyElements toolCall
  let parts := [command ++ " → " ++ path]
    ++ (if keyElements.functions.length > 0 then
        ["Functions: [" ++
          String.intercalate ", " (jsSliceTake 3 keyElements.functions) ++
          (if keyElements.functions.length > 3 then "..." else "") ++ "]"]
       else [])
    ++ (if keyElements.types.length > 0 then
        ["Types: [" ++
          String.intercalate ", " (jsSliceTake 2 keyElements.types) ++
          (if keyElements.types.length > 2 then "..." else "") ++ "]"]
       else [])
    ++ (if keyElements.exports.length > 0 then
        ["Exports: [" ++
          String.intercalate ", " (jsSliceTake 2 keyElements.exports) ++
          (if keyElements.exports.length > 2 then "..." else "") ++ "]"]
       else [])
  String.intercalate " | " parts

/-! ## Intelligent context manager
(`apps/open-swe/src/utils/intelligent-context-manager.ts`) -/

/-- A `BaseMessageLike` as the context manager receives it: a plain
string, or an object with a role, a string content, and an optional
`tool_calls` array (`none` models an absent property, `some []` an
empty one — JS distinguishes the two).  Multi-part and absent contents
are outside this model. -/
inductive CtxMsg where
  | str : String → CtxMsg
  | obj : String → String → Option (List AToolCall) → CtxMsg
deriving DecidableEq

/-- Source `ContentAnalyzer.getMessageContent`. -/
def getMessageContent : CtxMsg → String
  | CtxMsg.str s => s
  | CtxMsg.obj _ content _ => content

def systemPatterns : List String :=
  ["you are a", "act as", "your role is", "system:", "instructions:",
   "you must", "always respond", "never do", "follow these rules"]

/-- Source `ContentAnalyzer.isSystemPrompt`: role `system`; user/assistant
roles match system-like content patterns; other roles (and plain
strings) fall through to a `You are` / `system:` content check. -/
def isSystemPrompt (m : CtxMsg) : Bool :=
  match m with
  | CtxMsg.obj role content _ =>
    if role = "system" then true
    else if role = "user" || role = "assistant" then
      systemPatterns.any (fun p => jsIncludes (asciiLower content) p)
    else
      jsStartsWith content "You are" || jsIncludes content "system:"
  | CtxMsg.str s => jsStartsWith s "You are" || jsIncludes s "system:"

def codeIndicators : List String :=
  [".tsx", ".ts", ".js", ".jsx", ".py", ".java", ".cpp",
   "function ", "class ", "const ", "let ", "var ",
   "import ", "export ", "interface ", "type "]

/-- Source `ContentAnalyzer.isCodeGeneration`: code fences; else, when a
`tool_calls` property exists, whether one call's name mentions
edit/create/str_replace (returning without the indicator check); else
the code-indicator scan. -/
def isCodeGeneration (m : CtxMsg) : Bool :=
  let content := getMessageContent m
  if jsIncludes content "```" then true
  else
    match m with
    | CtxMsg.obj _ _ (some tcs) =>
      tcs.any (fun tc =>
        match tc.func with
        | some f =>
          jsIncludes f.name "edit" || jsIncludes f.name "create" ||
          jsIncludes f.name "str_replace"
        | none => false)
    | _ => codeIndicators.any (fun ind => jsIncludes content ind)

def errorIndicators : List String :=
  ["error", "exception", "failed", "fix", "bug", "issue",
   "problem", "solution", "resolve", "debug", "crash"]

/-- Source `ContentAnalyzer.isErrorResolution`. -/
def isErrorResolution (m : CtxMsg) : Bool :=
  errorIndicators.any (fun ind => jsIncludes (asciiLower (getMessageContent m)) ind)

/-- A code generation extracted from the history (the source also
stores the tool calls and a wall-clock timestamp placeholder, neither
of which the summarizer reads). -/
structure CodeGeneration where
  messageIndex : Nat
  message : CtxMsg
  codeContent : String

/-- Source `ContentAnalyzer.extractCodeGenerations`. -/
def extractCodeGenerations (messages : List CtxMsg) : List CodeGeneration :=
  messages.enum.filterMap (fun p =>
    if isCodeGeneration p.2 then
      some { messageIndex := p.1, message := p.2,
             codeContent := getMessageContent p.2 }
    else none)

/-- An analyzed tool call. -/
structure AnalyzedTool where
  originalTool : AToolCall
  messageIndex : Nat
  criticality : ToolCriticality
  summary : Option String := none
  keyElements : Option KeyElements := none
deriving DecidableEq

/-- Source `ToolAnalysisResult`. -/
structure ToolAnalysisResult where
  essential : List AnalyzedTool
  important : List AnalyzedTool
  routine : List AnalyzedTool
  totalAnalyzed : Nat
deriving DecidableEq

/-- Source `AdvancedToolAnalyzer.analyzeAllTools`: walk the messages carrying a
`tool_calls` array, classify each call, extract key elements and a
summary for non-essential calls, and bucket by level. -/
def analyzeAllTools (messages : List CtxMsg) : ToolAnalysisResult :=
  messages.enum.foldl
    (fun res p =>
      match p.2 with
      | CtxMsg.obj _ _ (some tcs) =>
        tcs.foldl
          (fun res tc =>
            let criticality := analyzeToolCriticality tc
            let analyzed : AnalyzedTool :=
              { originalTool := tc, messageIndex := p.1, criticality := criticality
                keyElements :=
                  if criticality.level ≠ "ESSENTIAL" then some (extractKeyElements tc)
                  else none
                summary :=
                  if criticality.level ≠ "ESSENTIAL" then some (createToolSummary tc)
                  else none }
            let res1 :=
              if criticality.level = "ESSENTIAL" then
                { res with essential := res.essential ++ [analyzed] }
              else if criticality.level = "IMPORTANT" then
                { res with important := res.important ++ [analyzed] }
              else
                { res with routine := res.routine ++ [analyzed] }
            { res1 with totalAnalyzed := res1.totalAnalyzed + 1 })
          res
      | _ => res)
    { essential := [], important := [], routine := [], totalAnalyzed := 0 }

/-- Source `IntelligentSummarizer.truncateForDisplay` (500 code units). -/
def truncateForDisplay (content : String) : String :=
  if content.data.length ≤ 500 then content
  else jsSubstringTo content 500 ++
    "\n... [contenido truncado para visualización, pero preservado completo en contexto] ..."

/-- Source `extractDecisions`: scan messages for decision phrasing, pushing the
first matching line (trimmed, first 100 units) while under ten items. -/
def extractDecisions (messages : List CtxMsg) : List String :=
  messages.foldl
    (fun decisions m =>
      let content := asciiLower (getMessageContent m)
      if jsIncludes content "decided to" || jsIncludes content "will use" ||
          jsIncludes content "approach:" || jsIncludes content "strategy:" then
        let decisionLine := (jsLines content).find? (fun line =>
          jsIncludes line "decided" || jsIncludes line "will use" ||
          jsIncludes line "approach" || jsIncludes line "strategy")
        match decisionLine with
        | some line =>
          if decisions.length < 10 then
            decisions ++ [jsSubstringTo (jsTrim line) 100]
          else decisions
        | none => decisions
      else decisions)
    []

/-- The capture of `/(error|exception|failed|bug):\s*([^\n]{1,100})/i`
after the colon: greedy `\s*` (which may cross newlines) backtracks
until the capture can start with a non-newline character. -/
def captureAfterColon (afterColon : List Char) : Option String :=
  let wsLen := (afterColon.takeWhile isWsChar).length
  let rec tryAt : Nat → Option String
    | j =>
      match afterColon.drop j with
      | c :: _ =>
        if c ≠ '\n' then
          some ⟨((afterColon.drop j).takeWhile (fun x => x ≠ '\n')).take 100⟩
        else if j = 0 then none else tryAt (j - 1)
      | [] => if j = 0 then none else tryAt (j - 1)
  tryAt wsLen

/-- First match of `/(error|exception|failed|bug):\s*([^\n]{1,100})/i`
over the content, returning the second capture group. -/
def findErrorCapture : Nat → List Char → Option String
  | _, [] => none
  | 0, _ => none
  | fuel + 1, c :: rest =>
    let tryWord := fun (w : String) =>
      if prefixAt w.data (asciiLower ⟨c :: rest⟩).data then
        match (c :: rest).drop w.data.length with
        | ':' :: afterColon => captureAfterColon afterColon
        | _ => none
      else none
    match tryWord "error" with
    | some cap => some cap
    | none =>
      match tryWord "exception" with
      | some cap => some cap
      | none =>
        match tryWord "failed" with
        | some cap => some cap
        | none =>
          match tryWord "bug" with
          | some cap => some cap
          | none => findErrorCapture fuel rest

/-- Source `extractErrorResolutions`. -/
def extractErrorResolutions (messages : List CtxMsg) : List String :=
  messages.foldl
    (fun errors m =>
      if isErrorResolution m then
        match findErrorCapture (getMessageContent m).data.length
            (getMessageContent m).data with
        | some cap =>
          if errors.length < 10 then errors ++ [jsTrim cap] else errors
        | none => errors
      else errors)
    []

def progressKeywords : List String :=
  ["completed", "finished", "implemented", "created", "✅"]

/-- Source `extractProgress`. -/
def extractProgress (messages : List CtxMsg) : List String :=
  messages.foldl
    (fun progress m =>
      let content := asciiLower (getMessageContent m)
      if progressKeywords.any (fun k => jsIncludes content k) then
        let progressLine := (jsLines content).find? (fun line =>
          progressKeywords.any (fun k => jsIncludes line k))
        match progressLine with
        | some line =>
          if progress.length < 10 then
            progress ++ [jsSubstringTo (jsTrim line) 100]
          else progress
        | none => progress
      else progress)
    []

/-- Source `getTimeRange` (a placeholder string in the source). -/
def getTimeRange (messages : List CtxMsg) : String :=
  toString messages.length ++ " mensajes de conversación anterior"

/-- The `function?.name || "unknown"` accessor. -/
def toolNameOr (d : String) (tc : AToolCall) : String :=
  match tc.func with
  | some f => if f.name ≠ "" then f.name else d
  | none => d

/-- The `function?.arguments?.path || d` accessor. -/
def toolPathOr (d : String) (tc : AToolCall) : String :=
  match tc.func with
  | some f => if f.arguments.path ≠ "" then f.arguments.path else d
  | none => d

/-- The `file_text || new_string || d` accessor. -/
def toolContentOr (d : String) (tc : AToolCall) : String :=
  match tc.func with
  | some f =>
    if f.arguments.fileText ≠ "" then f.arguments.fileText
    else if f.arguments.newString ≠ "" then f.arguments.newString
    else d
  | none => d

/-- Source `createEnhancedSummaryContent`: the summary template. -/
def createEnhancedSummaryContent (messageCount : Nat) (timeRange : String)
    (decisions errors progress : List String)
    (toolAnalysis : ToolAnalysisResult) : String :=
  "\n=== RESUMEN INTELIGENTE DE CONTEXTO ===\n\nPERÍODO: " ++ timeRange ++
  "\nMENSAJES RESUMIDOS: " ++ toString messageCount ++
  "\nHERRAMIENTAS ANALIZADAS: " ++ toString toolAnalysis.totalAnalyzed ++
  "\n\n🔴 HERRAMIENTAS ESENCIALES (PRESERVADAS COMPLETAS - " ++
  toString toolAnalysis.essential.length ++ "):\n" ++
  String.intercalate "\n" (toolAnalysis.essential.map (fun tool =>
    "\n- Mensaje " ++ toString tool.messageIndex ++ ": " ++
    toolNameOr "unknown" tool.originalTool ++
    "\n  📁 Archivo: " ++ toolPathOr "N/A" tool.originalTool ++
    "\n  🔒 Razón crítica: " ++ tool.criticality.reason ++
    "\n  📝 Contenido completo: " ++
    truncateForDisplay (toolContentOr "N/A" tool.originalTool) ++ "\n")) ++
  "\n\n🟡 HERRAMIENTAS IMPORTANTES (RESUMEN ESTRUCTURADO - " ++
  toString toolAnalysis.important.length ++ "):\n" ++
  String.intercalate "\n" (toolAnalysis.important.map (fun tool =>
    let ke := tool.keyElements
    let joinOr := fun (xs : List String) =>
      let j := String.intercalate ", " xs
      if j = "" then "none" else j
    "\n- Mensaje " ++ toString tool.messageIndex ++ ": " ++
    toolNameOr "unknown" tool.originalTool ++
    "\n  📁 Archivo: " ++ toolPathOr "N/A" tool.originalTool ++
    "\n  📋 Resumen: " ++ (match tool.summary with
      | some s => if s ≠ "" then s else "N/A"
      | none => "N/A") ++
    "\n  🔧 Funciones: [" ++ joinOr (match ke with
      | some k => k.functions | none => []) ++ "]" ++
    "\n  📤 Exports: [" ++ joinOr (match ke with
      | some k => k.exports | none => []) ++ "]" ++
    "\n  🏷️  Types: [" ++ joinOr (match ke with
      | some k => k.types | none => []) ++ "]\n")) ++
  "\n\n🟢 HERRAMIENTAS RUTINARIAS (RESUMEN BREVE - " ++
  toString toolAnalysis.routine.length ++ "):\n" ++
  String.intercalate "\n" (toolAnalysis.routine.map (fun tool =>
    "\n- Mensaje " ++ toString tool.messageIndex ++ ": " ++
    (match tool.summary with
     | some s => if s ≠ "" then s else
        toolNameOr "undefined" tool.originalTool ++ " → " ++
        toolPathOr "undefined" tool.originalTool
     | none =>
        toolNameOr "undefined" tool.originalTool ++ " → " ++
        toolPathOr "undefined" tool.originalTool) ++ "\n")) ++
  "\n\n📋 DECISIONES CLAVE TOMADAS:\n" ++
  String.intercalate "\n" (decisions.map (fun d => "- " ++ d)) ++
  "\n\n🐛 ERRORES RESUELTOS:\n" ++
  String.intercalate "\n" (errors.map (fun e => "- " ++ e)) ++
  "\n\n✅ PROGRESO COMPLETADO:\n" ++
  String.intercalate "\n" (progress.map (fun p => "- " ++ p)) ++
  "\n\n💡 NOTA IMPORTANTE: \n" ++
  "- Las herramientas ESENCIALES se preservan con contenido completo para evitar pérdida de configuraciones críticas\n" ++
  "- Las herramientas IMPORTANTES mantienen estructura detallada para debugging\n" ++
  "- Las herramientas RUTINARIAS se resumen brevemente para eficiencia\n" ++
  "- Las últimas 10 generaciones de código se mantienen completas además de este resumen\n" ++
  "\n=== FIN DEL RESUMEN INTELIGENTE ===\n    "

/-- The metadata record of a `ContextSummary`. -/
structure SummaryMetadata where
  originalMessageCount : Nat
  timeRange : String
  keyDecisions : List String
  errorsResolved : List String
  progressMade : List String
  essentialPreserved : Nat
  importantSummarized : Nat
  routineCompressed : Nat
  totalAnalyzed : Nat

/-- Source `ContextSummary` (its `role` field is the constant `"system"`). -/
structure ContextSummary where
  content : String
  metadata : SummaryMetadata

/-- Source `IntelligentSummarizer.createContextSummary`. -/
def createContextSummary (oldMessages : List CtxMsg) : ContextSummary :=
  let decisions := extractDecisions oldMessages
  let errors := extractErrorResolutions oldMessages
  let progress := extractProgress oldMessages
  let toolAnalysis := analyzeAllTools oldMessages
  let timeRange := getTimeRange oldMessages
  { content := createEnhancedSummaryContent oldMessages.length timeRange
      decisions errors progress toolAnalysis
    metadata :=
      { originalMessageCount := oldMessages.length
        timeRange := timeRange
        keyDecisions := decisions
        errorsResolved := errors
        progressMade := progress
        essentialPreserved := toolAnalysis.essential.length
        importantSummarized := toolAnalysis.important.length
        routineCompressed := toolAnalysis.routine.length
        totalAnalyzed := toolAnalysis.totalAnalyzed } }

/-- Source `SummarizeOptions`. -/
structure SummarizeOptions where
  keepLastCodeGenerations : Nat
  summarizeOlderThan : Nat
  heapUsage : ℚ

/-- JS `xs.slice(0, -n)`: all but the last `n` elements; `slice(0, -0)`
is the empty array. -/
def jsSliceDropLast (n : Nat) (xs : List α) : List α :=
  if n = 0 then [] else xs.take (xs.length - n)

/-- The emergency find of the summary message:
`m.role === "user" && m.content?.includes("[CONTEXTO RESUMIDO")`
(plain strings have no role). -/
def isSummaryUserMsg (m : CtxMsg) : Bool :=
  match m with
  | CtxMsg.obj role content _ =>
    role = "user" && jsIncludes content "[CONTEXTO RESUMIDO"
  | CtxMsg.str _ => false

/-- Source `IntelligentContextManager.intelligentSummarize`: preserve the first
system-prompt match; fold old messages into preserved essentials plus
one user-role summary; re-add recent code generations; append recent
non-system messages; and, when the result did not shrink, fall back to
(system, summary, last three recent).  (Message identity in the
`result.some(msg => msg === ...)` guard is modelled by value equality.) -/
def intelligentSummarize (messages : List CtxMsg) (opts : SummarizeOptions) :
    List CtxMsg :=
  let originalSystemPrompt := messages.find? (fun m => isSystemPrompt m)
  let result0 := match originalSystemPrompt with
    | some s => [s]
    | none => []
  let recentMessages := jsSliceLast opts.summarizeOlderThan messages
  let oldMessages := jsSliceDropLast opts.summarizeOlderThan messages
  let withOld :=
    if oldMessages.length > 0 then
      let toolAnalysis := analyzeAllTools oldMessages
      let essentialIdx := toolAnalysis.essential.map (fun t => t.messageIndex)
      let essentialMessages := (oldMessages.enum.filter
        (fun p => essentialIdx.contains p.1)).map (fun p => p.2)
      let result1 := result0 ++ essentialMessages
      let nonEssentialCount := ((oldMessages.enum.filter
        (fun p => !(essentialIdx.contains p.1))).map (fun p => p.2)).length
      if nonEssentialCount > 0 then
        let contextSummary := createContextSummary oldMessages
        let summaryAsUser := CtxMsg.obj "user"
          ("[CONTEXTO RESUMIDO INTELIGENTEMENTE]\n\n" ++ contextSummary.content)
          none
        result1 ++ [summaryAsUser]
      else result1
    else result0
  let allCodeGenerations := extractCodeGenerations messages
  let lastCodeGens := jsSliceLast opts.keepLastCodeGenerations allCodeGenerations
  let recentStartIndex := messages.length - opts.summarizeOlderThan
  let additionalCodeGenMessages :=
    ((lastCodeGens.filter (fun cg => cg.messageIndex < recentStartIndex)).filter
      (fun cg => !(withOld.any (fun msg => messages.get? cg.messageIndex = some msg)))).map
      (fun cg => cg.message)
  let result2 := withOld ++ additionalCodeGenMessages
  let recentNonSystemMessages := recentMessages.filter (fun m => !isSystemPrompt m)
  let result3 := result2 ++ recentNonSystemMessages
  if result3.length ≥ messages.length then
    let emergency0 := match originalSystemPrompt with
      | some s => [s]
      | none => []
    let emergency1 := emergency0 ++
      (match result3.find? isSummaryUserMsg with
       | some s => [s]
       | none => [])
    emergency1 ++ jsSliceLast 3 recentNonSystemMessages
  else result3

/-- Source `getSummarizationThreshold`: the recent-message quota from the
pressure band — keep 70% under 0.70, 50% under 0.80, 30% under 0.90,
else 20% — floored, and never below `max(5, min(15, total))`. -/
def getSummarizationThreshold (heapUsage : ℚ) (totalMessages : Nat) : Nat :=
  let targetRecentMessages :=
    if heapUsage < 7/10 then (totalMessages * 7) / 10
    else if heapUsage < 8/10 then (totalMessages * 5) / 10
    else if heapUsage < 9/10 then (totalMessages * 3) / 10
    else (totalMessages * 2) / 10
  let minRecentMessages := max 5 (min 15 totalMessages)
  max minRecentMessages targetRecentMessages

/-- An LLM provider. -/
inductive Provider where
  | anthropic | googleGenai | openai
deriving DecidableEq

/-- Source `formatForProvider`: every configured provider requires the system
message first; the source only validates and logs, returning the list
unchanged either way. -/
def formatForProvider (messages : List CtxMsg) (_provider : Provider) :
    List CtxMsg :=
  messages

/-- Source `IntelligentContextManager.adaptPrompt`.  The heap-usage fraction the
source reads from `process.memoryUsage()` is passed explicitly. -/
def adaptPrompt (heapUsage : ℚ) (messages : List CtxMsg) (provider : Provider) :
    List CtxMsg :=
  if heapUsage < 6/10 then formatForProvider messages provider
  else
    formatForProvider
      (intelligentSummarize messages
        { keepLastCodeGenerations := 10
          summarizeOlderThan := getSummarizationThreshold heapUsage messages.length
          heapUsage := heapUsage })
      provider

/-! ## Memory monitor
(`memory-monitor.ts`, class `MemoryMonitor`) -/

/-- Per-metric thresholds in MB. -/
structure MemoryThresholds where
  heapUsedMB : ℚ
  externalMB : ℚ
  arrayBuffersMB : ℚ

/-- Source `MemoryMonitorConfig`. -/
structure MemoryMonitorConfig where
  intervalMs : Nat
  warningThresholds : MemoryThresholds
  criticalThresholds : MemoryThresholds
  enableGCTrigger : Bool
  maxHistoryEntries : Nat

/-- Source `DEFAULT_MONITOR_CONFIG`, derived from the discovered heap limit
(default 8192 MB): warning at 70%/30%/20%, critical at 85%/50%/30%,
each floored (`Math.floor(H * q)` as the exact integer). -/
def defaultMonitorConfig (heapLimitMB : Nat) : MemoryMonitorConfig :=
  { intervalMs := 5000
    warningThresholds :=
      { heapUsedMB := ((heapLimitMB * 7) / 10 : Nat)
        externalMB := ((heapLimitMB * 3) / 10 : Nat)
        arrayBuffersMB := ((heapLimitMB * 2) / 10 : Nat) }
    criticalThresholds :=
      { heapUsedMB := ((heapLimitMB * 85) / 100 : Nat)
        externalMB := ((heapLimitMB * 5) / 10 : Nat)
        arrayBuffersMB := ((heapLimitMB * 3) / 10 : Nat) }
    enableGCTrigger := true
    maxHistoryEntries := 100 }

/-- A memory sample in bytes (`process.memoryUsage()`); the wall-clock
timestamp is elided. -/
structure MemoryStats where
  rss : ℚ
  heapUsed : ℚ
  heapTotal : ℚ
  external : ℚ
  arrayBuffers : ℚ

/-- An alert as `generateAlert` records it; the derived `message` text
and the wall-clock timestamp are elided. -/
structure MemoryAlert where
  level : String
  metric : String
  currentValue : ℚ
  threshold : ℚ
deriving DecidableEq

/-- Source `checkThresholds`: critical checks for heap-used, external and
array-buffers, then the warning checks for the same metrics — each an
independent strict `>` comparison in MB, in source order, with no
exclusion between the critical and warning tiers. -/
def checkThresholds (cfg : MemoryMonitorConfig) (stats : MemoryStats) :
    List MemoryAlert :=
  let heapUsedMB := stats.heapUsed / 1024 / 1024
  let externalMB := stats.external / 1024 / 1024
  let arrayBuffersMB := stats.arrayBuffers / 1024 / 1024
  (if heapUsedMB > cfg.criticalThresholds.heapUsedMB then
    [{ level := "critical", metric := "heapUsed", currentValue := heapUsedMB,
       threshold := cfg.criticalThresholds.heapUsedMB }] else []) ++
  (if externalMB > cfg.criticalThresholds.externalMB then
    [{ level := "critical", metric := "external", currentValue := externalMB,
       threshold := cfg.criticalThresholds.externalMB }] else []) ++
  (if arrayBuffersMB > cfg.criticalThresholds.arrayBuffersMB then
    [{ level := "critical", metric := "arrayBuffers", currentValue := arrayBuffersMB,
       threshold := cfg.criticalThresholds.arrayBuffersMB }] else []) ++
  (if heapUsedMB > cfg.warningThresholds.heapUsedMB then
    [{ level := "warning", metric := "heapUsed", currentValue := heapUsedMB,
       threshold := cfg.warningThresholds.heapUsedMB }] else []) ++
  (if externalMB > cfg.warningThresholds.externalMB then
    [{ level := "warning", metric := "external", currentValue := externalMB,
       threshold := cfg.warningThresholds.externalMB }] else []) ++
  (if arrayBuffersMB > cfg.warningThresholds.arrayBuffersMB then
    [{ level := "warning", metric := "arrayBuffers", currentValue := arrayBuffersMB,
       threshold := cfg.warningThresholds.arrayBuffersMB }] else [])

/-! ## Bounded document cache
(`bounded-document-cache.ts`, class `BoundedDocumentCache`) -/

/-- Source `BoundedCacheConfig`. -/
structure BoundedCacheConfig where
  maxSizeBytes : Nat
  maxEntries : Nat
  compressionThreshold : Nat
  enableCompression : Bool

/-- Source `DEFAULT_CACHE_CONFIG`. -/
def DEFAULT_CACHE_CONFIG : BoundedCacheConfig :=
  { maxSizeBytes := 500 * 1024 * 1024
    maxEntries := 1000
    compressionThreshold := 1 * 1024 * 1024
    enableCompression := true }

/-- A cache entry; `lastAccessed` is the explicit clock value standing
for `Date.now()`. -/
structure CacheEntry where
  content : String
  compressed : Bool
  sizeBytes : Nat
  lastAccessed : Nat
  accessCount : Nat
deriving DecidableEq

/-- The cache state: entries in `Map` insertion order plus the running
byte total. -/
structure DocCache where
  entries : List (String × CacheEntry)
  currentSizeBytes : Nat
deriving DecidableEq

def emptyDocCache : DocCache := { entries := [], currentSizeBytes := 0 }

/-- Source `BoundedDocumentCache.compress`: the source returns the content
as-is ("For now, just return as-is to avoid dependencies"). -/
def docCacheCompress (content : String) : String := content

/-- Source `BoundedDocumentCache.decompress`: likewise the identity. -/
def docCacheDecompress (content : String) : String := content

/-- The LRU comparator of `evictToMakeSpace`: older last-access first,
ties by lower access count (non-strict, so the JS stable sort keeps
insertion order on full ties). -/
def lruLe (a b : String × CacheEntry) : Bool :=
  (a.2.lastAccessed < b.2.lastAccessed) ||
  (a.2.lastAccessed = b.2.lastAccessed && a.2.accessCount ≤ b.2.accessCount)

/-- The eviction loop: walk entries in LRU order, deleting until the
byte total fits the target and the entry count is strictly below the
maximum. -/
def evictLoop (maxEntries targetSize : Nat) :
    List (String × CacheEntry) → DocCache → DocCache
  | [], cache => cache
  | (url, entry) :: rest, cache =>
    if cache.currentSizeBytes ≤ targetSize && cache.entries.length < maxEntries then
      cache
    else
      evictLoop maxEntries targetSize rest
        { entries := cache.entries.filter (fun p => p.1 ≠ url)
          currentSizeBytes := cache.currentSizeBytes - entry.sizeBytes }

/-- Source `evictToMakeSpace` (the caller guarantees `neededBytes` fits the
cache, so the `maxSizeBytes - neededBytes` target is non-negative). -/
def evictToMakeSpace (cfg : BoundedCacheConfig) (cache : DocCache)
    (neededBytes : Nat) : DocCache :=
  let targetSize := cfg.maxSizeBytes - neededBytes
  if cache.currentSizeBytes ≤ targetSize &&
      cache.entries.length < cfg.maxEntries then
    cache
  else
    evictLoop cfg.maxEntries targetSize (stableSortBy lruLe cache.entries) cache

/-- Source `BoundedDocumentCache.set`: reject contents over 80% of the cache
(`sizeBytes > maxSizeBytes * 0.8`, an exact comparison for byte-sized
inputs); compress above the threshold; subtract an overwritten entry's
size; evict; insert (a `Map.set` keeps an existing key's position). -/
def cacheSet (cfg : BoundedCacheConfig) (cache : DocCache)
    (url content : String) (now : Nat) : DocCache :=
  let sizeBytes := utf8Len content
  if 5 * sizeBytes > 4 * cfg.maxSizeBytes then cache
  else
    let compressed := sizeBytes > cfg.compressionThreshold && cfg.enableCompression
    let finalContent := if compressed then docCacheCompress content else content
    let finalSize := utf8Len finalContent
    let cache1 :=
      match cache.entries.find? (fun p => p.1 = url) with
      | some p =>
        { cache with currentSizeBytes := cache.currentSizeBytes - p.2.sizeBytes }
      | none => cache
    let cache2 := evictToMakeSpace cfg cache1 finalSize
    let entry : CacheEntry :=
      { content := finalContent, compressed := compressed, sizeBytes := finalSize,
        lastAccessed := now, accessCount := 1 }
    let entries' :=
      if cache2.entries.any (fun p => p.1 = url) then
        cache2.entries.map (fun p => if p.1 = url then (url, entry) else p)
      else cache2.entries ++ [(url, entry)]
    { entries := entries', currentSizeBytes := cache2.currentSizeBytes + finalSize }

/-- Source `BoundedDocumentCache.get`: on a hit, bump the access stats and
return the (decompressed) content. -/
def cacheGet (cache : DocCache) (url : String) (now : Nat) :
    Option String × DocCache :=
  match cache.entries.find? (fun p => p.1 = url) with
  | none => (none, cache)
  | some p =>
    let entry' := { p.2 with lastAccessed := now, accessCount := p.2.accessCount + 1 }
    let entries' := cache.entries.map (fun q => if q.1 = url then (url, entry') else q)
    let cache' := { cache with entries := entries' }
    (some (if entry'.compressed then docCacheDecompress entry'.content
           else entry'.content), cache')

/-! ## Bounded string manager compression
(`bounded-string-manager.ts`, class `BoundedStringManager`) -/

/-- Source `BoundedStringManager.compressContent`: the source returns the
content as-is ("For now, return as-is to avoid dependencies"). -/
def compressContent (content : String) : String := content

/-- Source `BoundedStringManager.decompressContent`: likewise the identity. -/
def decompressContent (content : String) : String := content

/-! ## Concrete inputs used by the claim theorems -/

set_option maxRecDepth 400000

/-- C1 byte-bound counterexample configuration: MaxMessages 3, MaxTotalBytes 10. -/
def c1Cfg : StreamingMessageConfig :=
  { maxMessages := 3
    maxTotalSizeBytes := 10
    preserveImportantMessages := true
    compressionEnabled := true }

/-- A single human message of 20 content bytes (22 with its serialized
empty kwargs), above the 10-byte budget of `c1Cfg`. -/
def c1Big : Msg := { kind := MsgKind.human, content := repChar 'a' 20 }

/-- A small human message for the C1 witness. -/
def c1Msg : Msg := { kind := MsgKind.human, content := "hello there" }

/-- C2 counterexample input: five lines of 150 characters (754 bytes). -/
def c2Input : String := String.intercalate "\n" (List.replicate 5 (repChar 'a' 150))

/-- The C3 scenario messages: a human turn, four tool results without
error wording, and an assistant turn carrying a tool call. -/
def c3Human : Msg := { kind := MsgKind.human, content := "Please add the feature" }

def c3Tool1 : Msg := { kind := MsgKind.tool, content := "done 1" }

def c3Tool2 : Msg := { kind := MsgKind.tool, content := "done 2" }

def c3Tool3 : Msg := { kind := MsgKind.tool, content := "done 3" }

def c3Assistant : Msg :=
  { kind := MsgKind.ai
    content := "ok"
    toolCalls := [{ name := "shell", argsJson := "\x7b\x7d" }] }

def c3Tool4 : Msg := { kind := MsgKind.tool, content := "done 4" }

/-- The C3 configuration: MaxMessages 3 with importance-based retention. -/
def c3Cfg : StreamingMessageConfig :=
  { maxMessages := 3
    maxTotalSizeBytes := 50 * 1024 * 1024
    preserveImportantMessages := true
    compressionEnabled := true }

def c3Input : List Msg := [c3Human, c3Tool1, c3Tool2, c3Tool3, c3Assistant, c3Tool4]

/-- The C4 inputs: a user message first, the system message second. -/
def c4UserMsg : CtxMsg := CtxMsg.obj "user" "hello" none

def c4SysMsg : CtxMsg := CtxMsg.obj "system" "You are an agent" none

def c4WitnessSys : CtxMsg := CtxMsg.obj "system" "Be helpful" none

def c4WitnessUser : CtxMsg := CtxMsg.obj "user" "hi" none

/-- The C5 input: one hundred plain user messages. -/
def c5Messages : List CtxMsg :=
  (List.range 100).map (fun i => CtxMsg.obj "user" ("u" ++ toString i) none)

/-- One-hundred-byte cache content for the C7 and C8 scenarios. -/
def cacheContent100 : String := repChar 'x' 100

/-- The C8 scenario configuration: MaxCacheBytes 300, MaxEntries 10. -/
def c8Cfg : BoundedCacheConfig :=
  { maxSizeBytes := 300
    maxEntries := 10
    compressionThreshold := 1 * 1024 * 1024
    enableCompression := true }

/-- The C8 scenario, step by step at ticks 1–5: insert a, b, c; read a;
insert d. -/
def c8AfterA : DocCache := cacheSet c8Cfg emptyDocCache "a" cacheContent100 1

def c8AfterB : DocCache := cacheSet c8Cfg c8AfterA "b" cacheContent100 2

def c8AfterC : DocCache := cacheSet c8Cfg c8AfterB "c" cacheContent100 3

def c8AfterRead : DocCache := (cacheGet c8AfterC "a" 4).2

def c8AfterD : DocCache := cacheSet c8Cfg c8AfterRead "d" cacheContent100 5

/-- The C7 configuration: a tiny compression threshold with compression
enabled. -/
def c7Cfg : BoundedCacheConfig :=
  { maxSizeBytes := 1000
    maxEntries := 10
    compressionThreshold := 10
    enableCompression := true }

/-- A concrete tool call for the C9 witness. -/
def c9Tool : AToolCall :=
  { func := some
      { name := "create_file"
        arguments :=
          { path := "src/utils/helpers.ts"
            fileText := "export function formatDate(d) \x7b return d; \x7d" } } }

/-! ## Helper lemmas -/

theorem length_jsSliceLast (n : Nat) (xs : List α) (h : n ≠ 0) :
    (jsSliceLast n xs).length ≤ n := by
  unfold jsSliceLast
  rw [if_neg h]
  simp only [List.length_drop]
  omega

theorem length_insSorted (le : α → α → Bool) (a : α) (xs : List α) :
    (insSorted le a xs).length = xs.length + 1 := by
  induction xs with
  | nil => rfl
  | cons b bs ih =>
    unfold insSorted
    split
    · simp
    · simp [ih]

theorem length_stableSortBy (le : α → α → Bool) (xs : List α) :
    (stableSortBy le xs).length = xs.length := by
  induction xs with
  | nil => rfl
  | cons a as_ ih =>
    unfold stableSortBy
    rw [length_insSorted, ih]
    rfl

theorem mem_insSorted (le : α → α → Bool) (a x : α) :
    ∀ (xs : List α), x ∈ insSorted le a xs → x = a ∨ x ∈ xs := by
  intro xs
  induction xs with
  | nil =>
    intro h
    simpa [insSorted] using h
  | cons b bs ih =>
    intro h
    unfold insSorted at h
    split at h
    · rcases List.mem_cons.mp h with rfl | h2
      · exact Or.inl rfl
      · exact Or.inr h2
    · rcases List.mem_cons.mp h with rfl | h2
      · exact Or.inr (List.mem_cons_self _ _)
      · rcases ih h2 with h3 | h3
        · exact Or.inl h3
        · exact Or.inr (List.mem_cons_of_mem _ h3)

theorem pairwise_insSorted (le : α → α → Bool)
    (htot : ∀ a b, le a b = true ∨ le b a = true)
    (htr : ∀ a b c, le a b = true → le b c = true → le a c = true)
    (a : α) : ∀ (xs : List α), xs.Pairwise (fun x y => le x y = true) →
    (insSorted le a xs).Pairwise (fun x y => le x y = true) := by
  intro xs
  induction xs with
  | nil =>
    intro _
    simp [insSorted]
  | cons b bs ih =>
    intro h
    rw [List.pairwise_cons] at h
    obtain ⟨hb, hbs⟩ := h
    unfold insSorted
    split
    · rename_i hab
      refine List.Pairwise.cons ?_ (List.Pairwise.cons hb hbs)
      intro y hy
      rcases List.mem_cons.mp hy with rfl | hy2
      · exact hab
      · exact htr a b y hab (hb y hy2)
    · rename_i hab
      refine List.Pairwise.cons ?_ (ih hbs)
      intro y hy
      rcases mem_insSorted le a y _ hy with rfl | hy2
      · rcases htot y b with h1 | h1
        · exact absurd h1 hab
        · exact h1
      · exact hb y hy2

theorem pairwise_stableSortBy (le : α → α → Bool)
    (htot : ∀ a b, le a b = true ∨ le b a = true)
    (htr : ∀ a b c, le a b = true → le b c = true → le a c = true)
    (xs : List α) :
    (stableSortBy le xs).Pairwise (fun x y => le x y = true) := by
  induction xs with
  | nil => simp [stableSortBy]
  | cons a as_ ih =>
    unfold stableSortBy
    exact pairwise_insSorted le htot htr a _ ih

theorem pairwise_indexOf_self [DecidableEq α] (xs : List α) (h : xs.Nodup) :
    xs.Pairwise (fun a b => xs.indexOf a ≤ xs.indexOf b) := by
  rw [List.pairwise_iff_getElem]
  intro i j hi hj hij
  rw [List.indexOf_getElem h i hi, List.indexOf_getElem h j hj]
  omega

theorem minimalValidJSON_parses (content : String) :
    jsonParses (createMinimalValidJSON content) = true := by
  unfold createMinimalValidJSON
  dsimp only
  split
  · decide
  · split
    · decide
    · decide

theorem intelligentSummarize_head (messages : List CtxMsg) (opts : SummarizeOptions)
    (s : CtxMsg) (h : messages.find? (fun m => isSystemPrompt m) = some s) :
    (intelligentSummarize messages opts).head? = some s := by
  unfold intelligentSummarize
  rw [h]
  dsimp only
  repeat' split
  all_goals simp

/-! ## Claim theorems -/

/-- Claim C1 (amended): for every configuration with at least two message
slots (the default 200 included), the streaming reducer returns at most
`maxMessages` messages, and — whenever the merged history has no duplicate
messages, modelling object identity — the survivors appear in their
original relative order.  The byte bound of the original claim fails; see
the counterexample. -/
theorem C1_streaming_bounds (cfg : StreamingMessageConfig) (prev newMsgs : List Msg)
    (hmax : 2 ≤ cfg.maxMessages) :
    (reduceMessages cfg prev newMsgs).length ≤ cfg.maxMessages ∧
    ((streamMerge prev newMsgs).Nodup →
      (reduceMessages cfg prev newMsgs).Pairwise
        (fun a b => (streamMerge prev newMsgs).indexOf a ≤
          (streamMerge prev newMsgs).indexOf b)) := by
  have hred : reduceMessages cfg prev newMsgs
      = applyStreamingBounds cfg (streamMerge prev newMsgs) := rfl
  rw [hred]
  set all := streamMerge prev newMsgs with hall
  clear_value all
  unfold applyStreamingBounds
  split
  · rename_i hcond
    rw [Bool.and_eq_true, decide_eq_true_eq, decide_eq_true_eq] at hcond
    exact ⟨hcond.1, fun hnd => pairwise_indexOf_self all hnd⟩
  · unfold createSlidingWindow
    split
    · constructor
      · exact length_jsSliceLast _ _ (by omega)
      · intro hnd
        unfold jsSliceLast
        rw [if_neg (by omega : ¬cfg.maxMessages = 0)]
        exact (pairwise_indexOf_self all hnd).sublist (List.drop_sublist _ _)
    · have htot : ∀ a b : Msg,
          (decide (all.indexOf a ≤ all.indexOf b) = true) ∨
          (decide (all.indexOf b ≤ all.indexOf a) = true) := by
        intro a b
        simp only [decide_eq_true_eq]
        omega
      have htr : ∀ a b c : Msg,
          decide (all.indexOf a ≤ all.indexOf b) = true →
          decide (all.indexOf b ≤ all.indexOf c) = true →
          decide (all.indexOf a ≤ all.indexOf c) = true := by
        intro a b c
        simp only [decide_eq_true_eq]
        omega
      constructor
      · rw [length_stableSortBy, List.length_append]
        have h1 : (jsSliceLast (cfg.maxMessages - cfg.maxMessages * 7 / 10)
            (all.filter (fun m => decide (calculateMessageImportance m ≥ 7)))).length
            ≤ cfg.maxMessages - cfg.maxMessages * 7 / 10 := by
          apply length_jsSliceLast
          have : cfg.maxMessages * 7 / 10 < cfg.maxMessages := by
            rw [Nat.div_lt_iff_lt_mul (by omega)]
            omega
          omega
        have h2 : (jsSliceLast (cfg.maxMessages * 7 / 10)
            (all.filter (fun m => decide (calculateMessageImportance m < 7)))).length
            ≤ cfg.maxMessages * 7 / 10 := by
          apply length_jsSliceLast
          have : 1 ≤ cfg.maxMessages * 7 / 10 := by
            rw [Nat.le_div_iff_mul_le (by omega)]
            omega
          omega
        omega
      · intro _
        have hp := pairwise_stableSortBy
          (fun a b : Msg => decide (all.indexOf a ≤ all.indexOf b)) htot htr
          ((jsSliceLast (cfg.maxMessages - cfg.maxMessages * 7 / 10)
            (all.filter (fun m => decide (calculateMessageImportance m ≥ 7)))) ++
           (jsSliceLast (cfg.maxMessages * 7 / 10)
            (all.filter (fun m => decide (calculateMessageImportance m < 7)))))
        exact hp.imp (fun h => by simpa using h)

/-- Witness for C1 at the default configuration on a single human
message. -/
theorem C1_streaming_bounds_witness :
    (reduceMessages DEFAULT_STREAMING_CONFIG [] [c1Msg]).length ≤
      DEFAULT_STREAMING_CONFIG.maxMessages ∧
    (reduceMessages DEFAULT_STREAMING_CONFIG [] [c1Msg]).Pairwise
      (fun a b => (streamMerge [] [c1Msg]).indexOf a ≤
        (streamMerge [] [c1Msg]).indexOf b) := by
  have h := C1_streaming_bounds DEFAULT_STREAMING_CONFIG [] [c1Msg] (by decide)
  exact ⟨h.1, h.2 (by decide)⟩

/-- Counterexample to C1 as stated: with MaxTotalBytes 10, reducing a
single 22-byte message returns a history whose total size exceeds the
byte bound — the sliding window prunes by count only. -/
theorem C1_byte_bound_refuted :
    c1Cfg.maxTotalSizeBytes < calculateTotalSize (reduceMessages c1Cfg [] [c1Big]) := by
  decide

/-- Claim C2 (amended): for every input already within the byte budget,
the truncator returns the content unchanged with `truncated = false` and
method "none".  The `finalSize ≤ maxBytes` half of the original claim
fails for truncated outputs; see the counterexample. -/
theorem C2_within_budget_unchanged (content : String) (maxSize : Nat)
    (contentType : Option String) (h : utf8Len content ≤ maxSize) :
    truncate content maxSize contentType =
    { content := content, truncated := false, originalSize := utf8Len content,
      finalSize := utf8Len content, syntaxOk := true,
      truncationMethod := "none" } := by
  unfold truncate
  rw [if_pos h]

/-- Witness for C2 on a five-byte string under a ten-byte budget. -/
theorem C2_within_budget_unchanged_witness :
    truncate "hello" 10 none =
    { content := "hello", truncated := false, originalSize := utf8Len "hello",
      finalSize := utf8Len "hello", syntaxOk := true,
      truncationMethod := "none" } :=
  C2_within_budget_unchanged "hello" 10 none (by decide)

/-- Counterexample to C2 as stated: five 150-character lines truncated to
a 200-byte budget come back truncated yet 335 bytes long — the generic
strategy bounds the number of lines, not the byte size. -/
theorem C2_final_size_refuted :
    (truncate c2Input 200 none).truncated = true ∧
    200 < (truncate c2Input 200 none).finalSize := by
  constructor
  · decide
  · decide

/-- Claim C3 (amended): with MaxMessages 3 and importance-based retention,
reducing [human1, tool1, tool2, tool3, assistant1-with-tool-calls, tool4]
yields exactly [tool3, assistant1, tool4]: the window keeps only the last
`3 - floor(0.7*3) = 1` important message (the assistant), so the human
message is dropped, contrary to the original claim. -/
theorem C3_window_keeps_one_important :
    reduceMessages c3Cfg c3Input [] = [c3Tool3, c3Assistant, c3Tool4] := by
  decide

/-- Counterexample to C3 as stated: the output is not
[human1, assistant1, tool4]. -/
theorem C3_human_kept_refuted :
    reduceMessages c3Cfg c3Input [] ≠ [c3Human, c3Assistant, c3Tool4] := by
  decide

/-- Claim C4 (amended): when the heap pressure is at least 0.60 — so the
summarization path actually runs — and the first message matching the
system-prompt heuristic is `s`, the adapted prompt starts with `s`.  Below
0.60 the list is returned unchanged, so the original unconditional claim
fails; see the counterexample. -/
theorem C4_system_first_under_pressure (heapUsage : ℚ) (messages : List CtxMsg)
    (provider : Provider) (s : CtxMsg)
    (hheap : 6/10 ≤ heapUsage)
    (h : messages.find? (fun m => isSystemPrompt m) = some s) :
    (adaptPrompt heapUsage messages provider).head? = some s := by
  unfold adaptPrompt
  rw [if_neg (by linarith : ¬(heapUsage < 6/10))]
  exact intelligentSummarize_head messages _ s h

/-- Witness for C4 at pressure 0.70 with the system message first. -/
theorem C4_system_first_under_pressure_witness :
    (adaptPrompt (7/10 : ℚ) [c4WitnessSys, c4WitnessUser]
      Provider.anthropic).head? = some c4WitnessSys :=
  C4_system_first_under_pressure (7/10) [c4WitnessSys, c4WitnessUser]
    Provider.anthropic c4WitnessSys (by norm_num) (by decide)

/-- Counterexample to C4 as stated: at pressure 0.50 the list comes back
unchanged, so its head is the user message, not the system message. -/
theorem C4_low_pressure_refuted :
    (adaptPrompt (1/2 : ℚ) [c4UserMsg, c4SysMsg] Provider.anthropic).head?
      ≠ some c4SysMsg := by
  unfold adaptPrompt
  rw [if_pos (by norm_num : ((1/2 : ℚ) < 6/10))]
  decide

/-- Claim C5 (amended): at heap ratio 0.95 the summarization threshold for
100 messages is `max(max(5, min(15, 100)), floor(0.2*100)) = 20`, and
adapting a 100-message prompt returns 21 messages (the 20 most recent
plus one synthesized summary), not at most 5. -/
theorem C5_threshold_keeps_twenty_one :
    getSummarizationThreshold (95/100 : ℚ) 100 = 20 ∧
    (adaptPrompt (95/100 : ℚ) c5Messages Provider.anthropic).length = 21 := by
  constructor
  · unfold getSummarizationThreshold
    norm_num
  · have hlen : c5Messages.length = 100 := by decide
    unfold adaptPrompt
    rw [if_neg (by norm_num : ¬((95/100 : ℚ) < 6/10))]
    rw [hlen]
    rw [(by unfold getSummarizationThreshold; norm_num :
      getSummarizationThreshold (95/100 : ℚ) 100 = 20)]
    show (intelligentSummarize c5Messages
      { keepLastCodeGenerations := 10, summarizeOlderThan := 20,
        heapUsage := 95/100 }).length = 21
    decide

/-- Counterexample to C5 as stated: the adapted 100-message prompt at
ratio 0.95 has more than 5 messages. -/
theorem C5_at_most_five_refuted :
    5 < (adaptPrompt (95/100 : ℚ) c5Messages Provider.anthropic).length := by
  have hlen : c5Messages.length = 100 := by decide
  unfold adaptPrompt
  rw [if_neg (by norm_num : ¬((95/100 : ℚ) < 6/10))]
  rw [hlen]
  rw [(by unfold getSummarizationThreshold; norm_num :
    getSummarizationThreshold (95/100 : ℚ) 100 = 20)]
  show 5 < (intelligentSummarize c5Messages
    { keepLastCodeGenerations := 10, summarizeOlderThan := 20,
      heapUsage := 95/100 }).length
  decide

/-- Claim C6 (amended): in one sample tick with heap-used above the
critical threshold (85% of 8192 MB = 6963 MB) and the other metrics quiet,
the monitor emits a critical AND a warning alert for heap-used — the
warning tier is not exclusive of the critical one; and exactly at the
critical threshold only the warning fires, the comparison being strict. -/
theorem C6_critical_and_warning (heapUsed external arrayBuffers : ℚ)
    (h1 : heapUsed / 1024 / 1024 > 6963)
    (h2 : ¬(external / 1024 / 1024 > 2457))
    (h3 : ¬(arrayBuffers / 1024 / 1024 > 1638)) :
    checkThresholds (defaultMonitorConfig 8192)
      { rss := 0, heapUsed := heapUsed, heapTotal := 0, external := external,
        arrayBuffers := arrayBuffers } =
    [{ level := "critical", metric := "heapUsed",
       currentValue := heapUsed / 1024 / 1024, threshold := 6963 },
     { level := "warning", metric := "heapUsed",
       currentValue := heapUsed / 1024 / 1024, threshold := 5734 }] ∧
    checkThresholds (defaultMonitorConfig 8192)
      { rss := 0, heapUsed := 6963 * 1024 * 1024, heapTotal := 0,
        external := 0, arrayBuffers := 0 } =
    [{ level := "warning", metric := "heapUsed", currentValue := 6963,
       threshold := 5734 }] := by
  constructor
  · have hcfg : defaultMonitorConfig 8192 =
      { intervalMs := 5000
        warningThresholds :=
          { heapUsedMB := 5734, externalMB := 2457, arrayBuffersMB := 1638 }
        criticalThresholds :=
          { heapUsedMB := 6963, externalMB := 4096, arrayBuffersMB := 2457 }
        enableGCTrigger := true
        maxHistoryEntries := 100 } := by
      unfold defaultMonitorConfig
      norm_num
    rw [hcfg]
    unfold checkThresholds
    dsimp only
    rw [if_pos h1]
    rw [if_neg (by intro hc; exact h2 (by linarith))]
    rw [if_neg (by intro hc; exact h3 (by linarith))]
    rw [if_pos (by linarith : heapUsed / 1024 / 1024 > 5734)]
    rw [if_neg h2, if_neg h3]
    simp
  · unfold checkThresholds defaultMonitorConfig
    dsimp only
    rw [if_neg (by norm_num), if_neg (by norm_num), if_neg (by norm_num)]
    rw [if_pos (by norm_num), if_neg (by norm_num), if_neg (by norm_num)]
    norm_num

/-- Witness for C6 at 7044 MB heap-used (86% of the 8192 MB ceiling). -/
theorem C6_critical_and_warning_witness :
    checkThresholds (defaultMonitorConfig 8192)
      { rss := 0, heapUsed := 7044 * 1024 * 1024, heapTotal := 0, external := 0,
        arrayBuffers := 0 } =
    [{ level := "critical", metric := "heapUsed",
       currentValue := 7044 * 1024 * 1024 / 1024 / 1024, threshold := 6963 },
     { level := "warning", metric := "heapUsed",
       currentValue := 7044 * 1024 * 1024 / 1024 / 1024, threshold := 5734 }] ∧
    checkThresholds (defaultMonitorConfig 8192)
      { rss := 0, heapUsed := 6963 * 1024 * 1024, heapTotal := 0,
        external := 0, arrayBuffers := 0 } =
    [{ level := "warning", metric := "heapUsed", currentValue := 6963,
       threshold := 5734 }] :=
  C6_critical_and_warning (7044 * 1024 * 1024) 0 0 (by norm_num)
    (by norm_num) (by norm_num)

/-- Counterexample to C6 as stated: at 7044 MB heap-used the alert list
contains a warning alongside the critical, not the critical alone. -/
theorem C6_single_alert_refuted :
    (checkThresholds (defaultMonitorConfig 8192)
      { rss := 0, heapUsed := 7044 * 1024 * 1024, heapTotal := 0,
        external := 0, arrayBuffers := 0 }).map (fun a => a.level) =
    ["critical", "warning"] := by
  unfold checkThresholds defaultMonitorConfig
  dsimp only
  rw [if_pos (by norm_num), if_neg (by norm_num), if_neg (by norm_num)]
  rw [if_pos (by norm_num), if_neg (by norm_num), if_neg (by norm_num)]
  norm_num

/-- Claim C7 (amended): with compression enabled, a document-cache write
above the compression threshold stores the entry marked `compressed = true`
while the stored content is byte-identical to the input — both `compress`
functions are the identity; no gzip and no size reduction occurs. -/
theorem C7_compression_is_identity (cfg : BoundedCacheConfig) (url content : String)
    (now : Nat) (hc : cfg.enableCompression = true)
    (ht : utf8Len content > cfg.compressionThreshold)
    (hs : ¬(5 * utf8Len content > 4 * cfg.maxSizeBytes)) :
    docCacheCompress content = content ∧ compressContent content = content ∧
    (cacheSet cfg emptyDocCache url content now).entries =
      [(url, { content := content, compressed := true,
               sizeBytes := utf8Len content, lastAccessed := now,
               accessCount := 1 })] := by
  refine ⟨rfl, rfl, ?_⟩
  unfold cacheSet
  rw [if_neg hs]
  have hcond : (decide (utf8Len content > cfg.compressionThreshold) &&
      cfg.enableCompression) = true := by
    rw [hc]
    simpa using ht
  dsimp only
  rw [hcond]
  unfold evictToMakeSpace
  simp [emptyDocCache, stableSortBy, evictLoop, docCacheCompress]

/-- Witness for C7: a 100-byte document above the 10-byte threshold. -/
theorem C7_compression_is_identity_witness :
    docCacheCompress cacheContent100 = cacheContent100 ∧
    compressContent cacheContent100 = cacheContent100 ∧
    (cacheSet c7Cfg emptyDocCache "k" cacheContent100 1).entries =
      [("k", { content := cacheContent100, compressed := true,
               sizeBytes := utf8Len cacheContent100, lastAccessed := 1,
               accessCount := 1 })] :=
  C7_compression_is_identity c7Cfg "k" cacheContent100 1 rfl (by decide) (by decide)

/-- Counterexample to C7 as stated: the stored entry is flagged compressed
yet holds exactly the original 100 bytes — no gzip was applied. -/
theorem C7_size_reduction_refuted :
    (cacheSet c7Cfg emptyDocCache "k" cacheContent100 1).entries.map
      (fun p => (p.2.compressed, p.2.content, p.2.sizeBytes)) =
      [(true, cacheContent100, 100)] := by
  decide

/-- Claim C8: running the scenario — insert 100-byte documents a, b, c at
ticks 1–3, read a at tick 4, insert d at tick 5 under a 300-byte budget —
leaves exactly the keys [a, c, d] with 300 bytes held; and in general,
between two entries with equal `lastAccessed`, eviction removes the one
with the smaller `accessCount` first. -/
theorem C8_lru_eviction (k1 k2 : String) (e1 e2 : CacheEntry)
    (hk : k1 ≠ k2)
    (hlast : e1.lastAccessed = e2.lastAccessed)
    (hcount : e1.accessCount < e2.accessCount)
    (hs1 : e1.sizeBytes = 100) (hs2 : e2.sizeBytes = 100) :
    (c8AfterD.entries.map (fun p => p.1) = ["a", "c", "d"] ∧
      c8AfterD.currentSizeBytes = 300) ∧
    (evictToMakeSpace
      { maxSizeBytes := 250, maxEntries := 10, compressionThreshold := 1024,
        enableCompression := true }
      { entries := [(k2, e2), (k1, e1)], currentSizeBytes := 200 }
      100).entries = [(k2, e2)] := by
  refine ⟨⟨by decide, by decide⟩, ?_⟩
  unfold evictToMakeSpace
  have hle : lruLe (k2, e2) (k1, e1) = false := by
    unfold lruLe
    simp only [Bool.or_eq_false_iff, Bool.and_eq_false_iff]
    constructor
    · simp only [decide_eq_false_iff_not]
      omega
    · right
      simp only [decide_eq_false_iff_not]
      omega
  have hsort : stableSortBy lruLe [(k2, e2), (k1, e1)] = [(k1, e1), (k2, e2)] := by
    simp [stableSortBy, insSorted, hle]
  rw [if_neg (by simp)]
  rw [hsort]
  unfold evictLoop
  rw [if_neg (by simp)]
  dsimp only
  unfold evictLoop
  have hfilter : List.filter (fun p => decide (p.1 ≠ k1)) [(k2, e2), (k1, e1)]
      = [(k2, e2)] := by
    simp [hk.symm]
  rw [hfilter]
  rw [hs1]
  rw [if_pos (by simp)]

/-- Witness for C8 at two concrete entries sharing a last-access tick. -/
theorem C8_lru_eviction_witness :
    ((c8AfterD.entries.map (fun p => p.1) = ["a", "c", "d"] ∧
      c8AfterD.currentSizeBytes = 300) ∧
    (evictToMakeSpace
      { maxSizeBytes := 250, maxEntries := 10, compressionThreshold := 1024,
        enableCompression := true }
      { entries :=
          [("k2", { content := "q", compressed := false, sizeBytes := 100,
                    lastAccessed := 7, accessCount := 2 }),
           ("k1", { content := "p", compressed := false, sizeBytes := 100,
                    lastAccessed := 7, accessCount := 1 })]
        currentSizeBytes := 200 }
      100).entries =
      [("k2", { content := "q", compressed := false, sizeBytes := 100,
                lastAccessed := 7, accessCount := 2 })]) :=
  C8_lru_eviction "k1" "k2"
    { content := "p", compressed := false, sizeBytes := 100,
      lastAccessed := 7, accessCount := 1 }
    { content := "q", compressed := false, sizeBytes := 100,
      lastAccessed := 7, accessCount := 2 }
    (by decide) rfl (by decide) rfl rfl

/-- Claim C9: the tool analyzer is deterministic — equal tool calls yield
equal criticality analyses and equal extracted key elements (the embedding
is a pure function of the call). -/
theorem C9_analyzer_deterministic (t1 t2 : AToolCall) (h : t1 = t2) :
    analyzeToolCriticality t1 = analyzeToolCriticality t2 ∧
    extractKeyElements t1 = extractKeyElements t2 := by
  subst h
  exact ⟨rfl, rfl⟩

/-- Witness for C9 at a concrete `create_file` call. -/
theorem C9_analyzer_deterministic_witness :
    analyzeToolCriticality c9Tool = analyzeToolCriticality c9Tool ∧
    extractKeyElements c9Tool = extractKeyElements c9Tool :=
  C9_analyzer_deterministic c9Tool c9Tool rfl

/-- Claim C10: the JSON validator never reports failure — for every input,
`validateAndFix` returns `valid = true`, because the final repair falls
back to a minimal skeleton that always parses. -/
theorem C10_validate_always_valid (content : String) :
    (validateAndFix content).valid = true := by
  unfold validateAndFix
  split
  · rfl
  · unfold attemptRepair
    have hmin := minimalValidJSON_parses content
    by_cases h2 : jsonParses (fixTrailingCommas content) <;>
    by_cases h3 : jsonParses (fixMissingQuotes content) <;>
    by_cases h4 : jsonParses (fixUnbalancedBraces content) <;>
    by_cases h5 : jsonParses (fixTruncatedString content) <;>
    simp [h2, h3, h4, h5, hmin]
